import Mathlib

/-
Verification of the TLB-flush stress test (microsoft/testsuites/stress/tlb_flush_stress.c)
against its design specification.

The C program is embedded shallowly:
  * the worker thread `tlb_flush_worker` becomes a pure function over an explicit
    environment (`WEnv`) that records the outcome of every system call it makes
    (mmap / munmap results, the values returned by time(NULL), and the value of the
    volatile `keep_running` flag at each read);
  * because `keep_running` is only ever lowered (1 -> 0, by a signal handler or by
    main after a pthread_create failure) and never raised again, the sequence of
    values a worker reads is a threshold sequence: true for the first `s` reads and
    false afterwards.  `shutdownAfter = some s` models exactly that; `none` models a
    run in which the flag is never cleared;
  * machine integers are Nat / Int (byte stores are taken mod 256, time_t arithmetic
    is Int); fallible execution returns Option (None = the cycle loop did not finish
    within the supplied fuel);
  * the loops of the C program (all of the shape `for (i = 0; i < n && keep_running; i++)`
    or `while (keep_running)`) are structural recursions on an explicit counter.

The malloc'd pointer array `memory_regions` is a `List Slot`; a slot is `uninit`
(malloc'd, never written), `mapFailed` (holds the MAP_FAILED sentinel) or
`region id mem` (holds the pointer of the id-th successful mmap, with the byte
contents of its pages).  The state additionally carries instrumentation that is
pure bookkeeping about the events that happened (counters of calls, the list of
munmap calls with their arguments and results, the number of reads of
uninitialized slots) so that the specification's claims can be stated.
-/

namespace Tlb

/-- #define PAGE_SIZE 4096 -/
def PAGE_SIZE : Nat := 4096
/-- #define DEFAULT_THREADS 4 -/
def DEFAULT_THREADS : Nat := 4
/-- #define DEFAULT_PAGES_PER_THREAD 1024 -/
def DEFAULT_PAGES_PER_THREAD : Nat := 1024
/-- #define DEFAULT_DURATION_SECONDS 60 -/
def DEFAULT_DURATION_SECONDS : Nat := 60
/-- #define DEFAULT_ITERATIONS_PER_CYCLE 100 -/
def DEFAULT_ITERATIONS_PER_CYCLE : Nat := 100

/-- One cell of the malloc'd `void **memory_regions` array. -/
inductive Slot where
  | uninit : Slot
  | mapFailed : Slot
  | region (id : Nat) (mem : List Nat) : Slot
deriving DecidableEq, Repr

/-- struct thread_data (the immutable part; the mutable counter
`thread_tlb_flushes` lives in the worker state). -/
structure thread_data where
  thread_id : Nat
  pages_per_thread : Nat
  duration_seconds : Nat
  iterations_per_cycle : Nat
deriving DecidableEq, Repr

/-- The environment of one worker: outcomes of its system calls and the values of
the volatile `keep_running` flag at each of its reads.  `shutdownAfter = some s`
means the flag reads 1 for the first `s` reads and 0 from then on (the flag is
only ever cleared, never set back); `none` means it is never cleared. -/
structure WEnv where
  tableAllocOk : Bool
  mmapOk : Nat → Bool
  munmapOk : Nat → Bool
  clock : Nat → Int
  shutdownAfter : Option Nat

/-- The full state of one worker, including instrumentation. -/
structure WState where
  /-- the malloc'd `memory_regions` array -/
  regions : List Slot
  /-- `data->thread_tlb_flushes` -/
  thread_tlb_flushes : Nat
  /-- number of reads of `keep_running` made so far -/
  pollCount : Nat
  /-- number of those reads that returned 1 -/
  truePolls : Nat
  /-- number of map / access / release phase loop bodies entered -/
  phaseIters : Nat
  /-- number of mmap calls made -/
  mmapCalls : Nat
  /-- number of munmap calls made -/
  munmapCalls : Nat
  /-- number of time(NULL) calls made -/
  timeCalls : Nat
  /-- `start_time` -/
  startTime : Int
  /-- next fresh id for a successful mmap -/
  nextId : Nat
  /-- number of successful mmap calls -/
  mapSucc : Nat
  /-- munmap calls made by the release phase: (region id, call succeeded) -/
  relCalls : List (Nat × Bool)
  /-- munmap calls made by the final cleanup loop: (region id, call succeeded) -/
  cleanCalls : List (Nat × Bool)
  /-- ids of the regions currently mapped (the OS view) -/
  mapped : List Nat
  /-- number of reads of a never-written slot of `memory_regions` -/
  uninitReads : Nat
deriving DecidableEq, Repr

/-- One read of the volatile `keep_running` flag. -/
def readFlag (env : WEnv) (st : WState) : Bool × WState :=
  let v := match env.shutdownAfter with
    | none => true
    | some s => decide (st.pollCount < s)
  (v, { st with pollCount := st.pollCount + 1,
                truePolls := if v then st.truePolls + 1 else st.truePolls })

/-- The page contents produced by the touch loop of map-phase iteration `i`:
`*page = (char)(i + j)` for every page index `j` (mmap'd memory starts zeroed,
then every page is written). -/
def touchPages (i pages : Nat) : List Nat :=
  (List.range pages).map (fun j => (i + j) % 256)

/-- Access-pattern event: a byte read or a byte write at a page offset. -/
inductive AccEv where
  | read (off val : Nat) : AccEv
  | write (off val : Nat) : AccEv
deriving DecidableEq, Repr

/-- Phase 2 inner loop for one region, C source:
`for (j = 0; j < pages; j += 4) { off = (j*17 + i*13) % pages; v = *page; *page = v+1; }`.
Structural recursion on a fuel that callers make at least the number of loop
iterations; also returns the trace of reads and writes performed. -/
def accessGo (pages i : Nat) : Nat → Nat → List Nat → List Nat × List AccEv
  | 0, _, mem => (mem, [])
  | fuel + 1, j, mem =>
    if j < pages then
      let off := (j * 17 + i * 13) % pages
      let v := mem.getD off 0
      let mem2 := mem.set off ((v + 1) % 256)
      let r := accessGo pages i fuel (j + 4) mem2
      (r.1, AccEv.read off v :: AccEv.write off ((v + 1) % 256) :: r.2)
    else (mem, [])

/-- Phase 2 body for one mapped region (`pages` iterations of fuel always suffice
since `j` advances by 4 each step). -/
def accessRegion (pages i : Nat) (mem : List Nat) : List Nat × List AccEv :=
  accessGo pages i pages 0 mem

/-- Map-phase loop body (one mmap plus the touch loop), C source lines 71-86. -/
def mapBody (env : WEnv) (cfg : thread_data) (i : Nat) (st : WState) : WState :=
  if env.mmapOk st.mmapCalls then
    { st with mmapCalls := st.mmapCalls + 1,
              regions := st.regions.set i
                (Slot.region st.nextId (touchPages i cfg.pages_per_thread)),
              nextId := st.nextId + 1,
              mapSucc := st.mapSucc + 1,
              mapped := st.mapped ++ [st.nextId] }
  else
    { st with mmapCalls := st.mmapCalls + 1,
              regions := st.regions.set i Slot.mapFailed }

/-- A phase-loop guard that read `keep_running` as 1 and is about to run the
body: the state after the read, with the entered iteration counted. -/
def tick (env : WEnv) (st : WState) : WState :=
  { (readFlag env st).2 with phaseIters := (readFlag env st).2.phaseIters + 1 }

/-- Map phase: `for (i = 0; i < iterations_per_cycle && keep_running; i++)`. -/
def mapAux (env : WEnv) (cfg : thread_data) : Nat → Nat → WState → WState
  | 0, _, st => st
  | fuel + 1, i, st =>
    if i < cfg.iterations_per_cycle then
      if (readFlag env st).1 then
        mapAux env cfg fuel (i + 1) (mapBody env cfg i (tick env st))
      else (readFlag env st).2
    else st

/-- Access-phase loop body, C source lines 91-100.  Reading a never-written slot
of the malloc'd array is undefined behaviour in the C program; the model records
the read and deterministically treats the garbage as MAP_FAILED. -/
def accessBody (cfg : thread_data) (i : Nat) (st : WState) : WState :=
  match st.regions.getD i Slot.uninit with
  | Slot.mapFailed => st
  | Slot.uninit => { st with uninitReads := st.uninitReads + 1 }
  | Slot.region id mem =>
    { st with regions :=
        st.regions.set i (Slot.region id (accessRegion cfg.pages_per_thread i mem).1) }

/-- Access phase: `for (i = 0; i < iterations_per_cycle && keep_running; i++)`. -/
def accessAux (env : WEnv) (cfg : thread_data) : Nat → Nat → WState → WState
  | 0, _, st => st
  | fuel + 1, i, st =>
    if i < cfg.iterations_per_cycle then
      if (readFlag env st).1 then
        accessAux env cfg fuel (i + 1) (accessBody cfg i (tick env st))
      else (readFlag env st).2
    else st

/-- Release-phase loop body, C source lines 105-113: skip MAP_FAILED slots, call
munmap, count the flush only on success, and set the slot to MAP_FAILED whether
or not munmap succeeded. -/
def relBody (env : WEnv) (i : Nat) (st : WState) : WState :=
  match st.regions.getD i Slot.uninit with
  | Slot.mapFailed => st
  | Slot.uninit => { st with uninitReads := st.uninitReads + 1 }
  | Slot.region id _mem =>
    if env.munmapOk st.munmapCalls then
      { st with munmapCalls := st.munmapCalls + 1,
                thread_tlb_flushes := st.thread_tlb_flushes + 1,
                relCalls := st.relCalls ++ [(id, true)],
                regions := st.regions.set i Slot.mapFailed,
                mapped := st.mapped.erase id }
    else
      { st with munmapCalls := st.munmapCalls + 1,
                relCalls := st.relCalls ++ [(id, false)],
                regions := st.regions.set i Slot.mapFailed }

/-- Release phase: `for (i = 0; i < iterations_per_cycle && keep_running; i++)`.
Also returns the final value of `i` (the first slot index NOT processed). -/
def releaseAux (env : WEnv) (cfg : thread_data) : Nat → Nat → WState → WState × Nat
  | 0, i, st => (st, i)
  | fuel + 1, i, st =>
    if i < cfg.iterations_per_cycle then
      if (readFlag env st).1 then
        releaseAux env cfg fuel (i + 1) (relBody env i (tick env st))
      else ((readFlag env st).2, i)
    else (st, i)

/-- Final cleanup loop body, C source lines 121-125: no keep_running guard, the
munmap result is ignored, and the slot is NOT overwritten.  On a never-written
slot the C code compares malloc garbage with MAP_FAILED (undefined behaviour);
the model records the uninitialized read. -/
def cleanBody (env : WEnv) (i : Nat) (st : WState) : WState :=
  match st.regions.getD i Slot.uninit with
  | Slot.mapFailed => st
  | Slot.uninit => { st with uninitReads := st.uninitReads + 1 }
  | Slot.region id _mem =>
    if env.munmapOk st.munmapCalls then
      { st with munmapCalls := st.munmapCalls + 1,
                cleanCalls := st.cleanCalls ++ [(id, true)],
                mapped := st.mapped.erase id }
    else
      { st with munmapCalls := st.munmapCalls + 1,
                cleanCalls := st.cleanCalls ++ [(id, false)] }

/-- Cleanup loop: `for (i = 0; i < iterations_per_cycle; i++)`. -/
def cleanupAux (env : WEnv) (cfg : thread_data) : Nat → Nat → WState → WState
  | 0, _, st => st
  | fuel + 1, i, st =>
    if i < cfg.iterations_per_cycle then
      cleanupAux env cfg fuel (i + 1) (cleanBody env i st)
    else st

/-- State after the `while` guard read 1 and `current_time = time(NULL)` ran. -/
def cycleTop (env : WEnv) (st : WState) : WState :=
  { (readFlag env st).2 with timeCalls := (readFlag env st).2.timeCalls + 1 }

/-- The three phases of one cycle body, in source order (the touch loop is part
of the map phase). -/
def cyclePhases (env : WEnv) (cfg : thread_data) (st : WState) : WState :=
  (releaseAux env cfg cfg.iterations_per_cycle 0
    (accessAux env cfg cfg.iterations_per_cycle 0
      (mapAux env cfg cfg.iterations_per_cycle 0 st))).1

/-- The worker's `while (keep_running)` cycle loop, C source lines 63-118.
`none` means the loop did not exit within `fuel` cycles.  The 1 ms usleep has no
observable effect in the model. -/
def runCycles (env : WEnv) (cfg : thread_data) : Nat → WState → Option WState
  | 0, _ => none
  | fuel + 1, st =>
    if (readFlag env st).1 then
      if env.clock st.timeCalls - st.startTime ≥ (cfg.duration_seconds : Int) then
        some (cycleTop env st)
      else
        runCycles env cfg fuel (cyclePhases env cfg (cycleTop env st))
    else some (readFlag env st).2

/-- Worker state right after `start_time = time(NULL); data->thread_tlb_flushes = 0;`
(the malloc'd region array is uninitialized). -/
def initState (env : WEnv) (cfg : thread_data) : WState :=
  { regions := List.replicate cfg.iterations_per_cycle Slot.uninit
    thread_tlb_flushes := 0
    pollCount := 0
    truePolls := 0
    phaseIters := 0
    mmapCalls := 0
    munmapCalls := 0
    timeCalls := 1
    startTime := env.clock 0
    nextId := 0
    mapSucc := 0
    relCalls := []
    cleanCalls := []
    mapped := []
    uninitReads := 0 }

/-- Worker state on the early-return path where the malloc of `memory_regions`
fails (line 57): nothing happened; `thread_tlb_flushes` is 0 because main wrote
0 into it before pthread_create (line 230). -/
def allocFailState : WState :=
  { regions := []
    thread_tlb_flushes := 0
    pollCount := 0
    truePolls := 0
    phaseIters := 0
    mmapCalls := 0
    munmapCalls := 0
    timeCalls := 0
    startTime := 0
    nextId := 0
    mapSucc := 0
    relCalls := []
    cleanCalls := []
    mapped := []
    uninitReads := 0 }

/-- What a worker hands back: its final state, the list of amounts it added to
the mutex-protected global counter (one entry per lock/add/unlock block
executed), and whether it took the allocation-failure early return. -/
structure WOut where
  final : WState
  merges : List Nat
  allocFailed : Bool
deriving DecidableEq, Repr

/-- The whole of `tlb_flush_worker` (C source lines 42-137): allocate the region
table (early return on failure, without touching the global counter), run the
cycle loop, clean up every slot, then merge the per-thread counter into the
global one exactly once under the mutex. -/
def tlb_flush_worker (env : WEnv) (cfg : thread_data) (fuel : Nat) : Option WOut :=
  if env.tableAllocOk then
    match runCycles env cfg fuel (initState env cfg) with
    | some st =>
      let stc := cleanupAux env cfg cfg.iterations_per_cycle 0 st
      some { final := stc, merges := [stc.thread_tlb_flushes], allocFailed := false }
    | none => none
  else
    some { final := allocFailState, merges := [], allocFailed := true }

/-! Command-line parsing and main (C source lines 139-261). -/

/-- C `isspace` on the characters `atoi` skips. -/
def isSpaceC (c : Char) : Bool :=
  c = ' ' ∨ c = '\t' ∨ c = '\n' ∨ c = '\x0b' ∨ c = '\x0c' ∨ c = '\r'

/-- Leading-digit accumulator of C `atoi`. -/
def digitsVal : List Nat → Nat → Nat → Nat
  | [], acc, _ => acc
  | c :: cs, acc, fuel =>
    match fuel with
    | 0 => acc
    | fuel + 1 =>
      if 48 ≤ c ∧ c ≤ 57 then digitsVal cs (acc * 10 + (c - 48)) fuel else acc

/-- C `atoi`: skip whitespace, optional sign, then the longest digit prefix;
returns 0 when there is no digit prefix, and ignores any trailing garbage. -/
def atoi (s : String) : Int :=
  let cs := (s.data.dropWhile isSpaceC).map Char.toNat
  match cs with
  | 45 :: rest => - (digitsVal rest 0 rest.length : Int)
  | 43 :: rest => (digitsVal rest 0 rest.length : Int)
  | _ => (digitsVal cs 0 cs.length : Int)

/-- The workload configuration held in main's locals. -/
structure Config where
  num_threads : Nat
  pages_per_thread : Nat
  duration_seconds : Nat
  iterations_per_cycle : Nat
deriving DecidableEq, Repr

/-- The defaults of main's locals (lines 153-156). -/
def defaultConfig : Config :=
  { num_threads := DEFAULT_THREADS
    pages_per_thread := DEFAULT_PAGES_PER_THREAD
    duration_seconds := DEFAULT_DURATION_SECONDS
    iterations_per_cycle := DEFAULT_ITERATIONS_PER_CYCLE }

/-- One option yielded by `getopt(argc, argv, "t:p:d:i:h")`: a recognized option
with its `optarg` string, `-h`, or anything getopt rejects (unknown option or
missing argument). -/
inductive CliOpt where
  | optT (a : String) : CliOpt
  | optP (a : String) : CliOpt
  | optD (a : String) : CliOpt
  | optI (a : String) : CliOpt
  | optH : CliOpt
  | optUnknown : CliOpt
deriving DecidableEq, Repr

/-- Outcome of the argument loop: proceed with a config, or return from main
with an exit code (`stderrMsg` records whether the path printed to stderr). -/
inductive ParseResult where
  | run (cfg : Config) : ParseResult
  | exitWith (code : Nat) (stderrMsg : Bool) : ParseResult
deriving DecidableEq, Repr

/-- The `while ((opt = getopt(...)) != -1) switch (opt) { ... }` loop,
C source lines 160-197, with the exact bounds checks of the source. -/
def parseArgsAux : Config → List CliOpt → ParseResult
  | cfg, [] => ParseResult.run cfg
  | cfg, o :: rest =>
    match o with
    | CliOpt.optT a =>
      let v := atoi a
      if v ≤ 0 ∨ 64 < v then ParseResult.exitWith 1 true
      else parseArgsAux { cfg with num_threads := v.toNat } rest
    | CliOpt.optP a =>
      let v := atoi a
      if v ≤ 0 ∨ 100000 < v then ParseResult.exitWith 1 true
      else parseArgsAux { cfg with pages_per_thread := v.toNat } rest
    | CliOpt.optD a =>
      let v := atoi a
      if v ≤ 0 then ParseResult.exitWith 1 true
      else parseArgsAux { cfg with duration_seconds := v.toNat } rest
    | CliOpt.optI a =>
      let v := atoi a
      if v ≤ 0 ∨ 10000 < v then ParseResult.exitWith 1 true
      else parseArgsAux { cfg with iterations_per_cycle := v.toNat } rest
    | CliOpt.optH => ParseResult.exitWith 0 false
    | CliOpt.optUnknown => ParseResult.exitWith 1 false

/-- Argument parsing starting from the defaults. -/
def parseArgs (opts : List CliOpt) : ParseResult :=
  parseArgsAux defaultConfig opts

/-- Main's environment: the outcomes of its two mallocs and of each
pthread_create call. -/
structure MainEnv where
  threadsAllocOk : Bool
  dataAllocOk : Bool
  createOk : Nat → Bool

/-- The thread-launch loop, C source lines 225-237: stop at the first
pthread_create failure, clearing keep_running.  Returns (number of workers
started, whether main cleared the flag). -/
def launchLoop (menv : MainEnv) (n : Nat) : Nat → Nat → Nat × Bool
  | 0, i => (i, false)
  | fuel + 1, i =>
    if i < n then
      if menv.createOk i then launchLoop menv n fuel (i + 1)
      else (i, true)
    else (i, false)

/-- thread_data main writes for worker `k` (lines 226-229). -/
def mkThreadData (k : Nat) (cfg : Config) : thread_data :=
  { thread_id := k
    pages_per_thread := cfg.pages_per_thread
    duration_seconds := cfg.duration_seconds
    iterations_per_cycle := cfg.iterations_per_cycle }

/-- Run the started workers.  The workers are independent (disjoint region
tables, per-thread counters); each one's interaction with the flag and the
kernel is captured by its own environment, so the concurrent execution is
modelled as the list of their individual runs. -/
def runWorkers (wenvs : Nat → WEnv) (cfg : Config) (fuel : Nat) :
    List Nat → Option (List WOut)
  | [] => some []
  | k :: ks =>
    match tlb_flush_worker (wenvs k) (mkThreadData k cfg) fuel,
          runWorkers wenvs cfg fuel ks with
    | some o, some os => some (o :: os)
    | _, _ => none

/-- Observable outcome of a whole process run. -/
structure ProcResult where
  exitCode : Nat
  /-- number of workers successfully created -/
  started : Nat
  /-- did main clear keep_running (line 234)? -/
  keepRunningCleared : Bool
  /-- number of pthread_join calls main makes (line 240-242: always num_threads,
  even for slots whose pthread_create failed or was never attempted) -/
  joinAttempts : Nat
  /-- final value of the mutex-protected `total_tlb_flushes` -/
  totalFlushes : Nat
  /-- the `thread_tlb_flushes` of each started worker, in thread order -/
  perThread : List Nat
  /-- total number of regions still mapped at exit -/
  mappedLeft : Nat
  /-- total number of successful mmap calls -/
  totMapSucc : Nat
  /-- total number of successful munmap calls -/
  totReleased : Nat
deriving DecidableEq, Repr

/-- Number of successful munmap calls of a worker (release phase + cleanup). -/
def releasedCount (st : WState) : Nat :=
  (st.relCalls.filter (fun c => c.2)).length +
    (st.cleanCalls.filter (fun c => c.2)).length

/-- Assemble the observables of a run from the worker outputs. -/
def procOf (code started : Nat) (cleared : Bool) (joins : Nat)
    (outs : List WOut) : ProcResult :=
  { exitCode := code
    started := started
    keepRunningCleared := cleared
    joinAttempts := joins
    totalFlushes := (outs.map (fun o => o.merges.sum)).sum
    perThread := outs.map (fun o => o.final.thread_tlb_flushes)
    mappedLeft := (outs.map (fun o => o.final.mapped.length)).sum
    totMapSucc := (outs.map (fun o => o.final.mapSucc)).sum
    totReleased := (outs.map (fun o => releasedCount o.final)).sum }

/-- The whole of `main` (C source lines 152-261): parse arguments (any failure
or -h returns before anything else happens), malloc the two bookkeeping arrays
(on failure return 1 immediately, without touching keep_running), launch
workers stopping at the first pthread_create failure (clearing keep_running),
join, aggregate, and return 0. -/
def main (opts : List CliOpt) (menv : MainEnv) (wenvs : Nat → WEnv)
    (fuel : Nat) : Option ProcResult :=
  match parseArgs opts with
  | ParseResult.exitWith c _ => some (procOf c 0 false 0 [])
  | ParseResult.run cfg =>
    if menv.threadsAllocOk ∧ menv.dataAllocOk then
      match runWorkers wenvs cfg fuel
          (List.range (launchLoop menv cfg.num_threads cfg.num_threads 0).1) with
      | some outs =>
        some (procOf 0 (launchLoop menv cfg.num_threads cfg.num_threads 0).1
          (launchLoop menv cfg.num_threads cfg.num_threads 0).2 cfg.num_threads outs)
      | none => none
    else some (procOf 1 0 false 0 [])

/-! Specification-side description of the access phase (claim C7).  These
definitions follow the spec's words — stride 4 over the page indices, offset
function `(j*17 + i*13) mod pagesPerThread`, read-then-write-plus-one — and are
proved equal to the source-derived `accessRegion`. -/

/-- The page indices `j = 0, 4, 8, ...` below `pages` that the spec says the
access phase visits. -/
def strideJs (pages : Nat) : List Nat :=
  List.range' 0 ((pages + 3) / 4) 4

/-- The page offsets the spec says iteration `i` touches. -/
def strideOffsets (pages i : Nat) : List Nat :=
  (strideJs pages).map (fun j => (j * 17 + i * 13) % pages)

/-- Spec-side touch: at each listed offset in order, read the byte and write
back the read value plus one.  Returns final memory and the event trace. -/
def rwTrace : List Nat → List Nat → List Nat × List AccEv
  | [], mem => (mem, [])
  | o :: os, mem =>
    let v := mem.getD o 0
    let r := rwTrace os (mem.set o ((v + 1) % 256))
    (r.1, AccEv.read o v :: AccEv.write o ((v + 1) % 256) :: r.2)

lemma accessGo_spec (pages i : Nat) :
    ∀ fuel j mem, (pages - j + 3) / 4 ≤ fuel →
      accessGo pages i fuel j mem =
        rwTrace ((List.range' j ((pages - j + 3) / 4) 4).map
          (fun jj => (jj * 17 + i * 13) % pages)) mem := by
  intro fuel
  induction fuel with
  | zero =>
    intro j mem h
    have hj : ¬ j < pages := by omega
    have hz : (pages - j + 3) / 4 = 0 := by omega
    simp [accessGo, hz, rwTrace]
  | succ fuel ih =>
    intro j mem h
    by_cases hj : j < pages
    · have hn : (pages - j + 3) / 4 = ((pages - (j + 4) + 3) / 4) + 1 := by omega
      rw [hn, List.range'_succ]
      simp only [accessGo, hj, if_true, List.map_cons, rwTrace]
      rw [ih (j + 4) _ (by omega)]
    · have hz : (pages - j + 3) / 4 = 0 := by omega
      simp [accessGo, hj, hz, rwTrace]

lemma accessRegion_spec (pages i : Nat) (mem : List Nat) :
    accessRegion pages i mem = rwTrace (strideOffsets pages i) mem := by
  have h := accessGo_spec pages i pages 0 mem (by omega)
  simpa [accessRegion, strideOffsets, strideJs] using h

lemma strideJs_mem (pages : Nat) :
    ∀ j, j ∈ strideJs pages ↔ (j % 4 = 0 ∧ j < pages) := by
  intro j
  constructor
  · intro hmem
    rcases List.mem_range'.mp hmem with ⟨k, hk, rfl⟩
    omega
  · intro ⟨h4, hlt⟩
    exact List.mem_range'.mpr ⟨j / 4, by omega, by omega⟩

/-! Generic list and multiset helpers about the region table. -/

/-- The multiset of region ids a slot holds (empty unless the slot holds a
live mapping). -/
def slotIds : Slot → Multiset Nat
  | Slot.region id _ => {id}
  | _ => 0

/-- The multiset of region ids held in the table. -/
def regionMS : List Slot → Multiset Nat
  | [] => 0
  | s :: rest => slotIds s + regionMS rest

lemma regionMS_replicate_uninit (n : Nat) :
    regionMS (List.replicate n Slot.uninit) = 0 := by
  induction n with
  | zero => simp [regionMS]
  | succ n ih => simp [List.replicate_succ, regionMS, ih, slotIds]

lemma regionMS_set (l : List Slot) :
    ∀ (i : Nat) (v : Slot), i < l.length →
      regionMS (l.set i v) + slotIds (l.getD i Slot.uninit) =
        regionMS l + slotIds v := by
  induction l with
  | nil => intro i v h; simp at h
  | cons a rest ih =>
    intro i v h
    cases i with
    | zero =>
      show (slotIds v + regionMS rest) + slotIds a = (slotIds a + regionMS rest) + slotIds v
      abel
    | succ i =>
      simp only [List.set, List.getD_cons_succ, regionMS]
      have := ih i v (by simpa using h)
      rw [add_assoc, this, ← add_assoc]

lemma getD_set_ne (l : List Slot) (i k : Nat) (v d : Slot) (h : i ≠ k) :
    (l.set i v).getD k d = l.getD k d := by
  simp [List.getD, List.getElem?_set_ne h]

lemma getD_set_self (l : List Slot) (i : Nat) (v d : Slot) (h : i < l.length) :
    (l.set i v).getD i d = v := by
  simp [List.getD, List.getElem?_set_self, h]

lemma getD_lt_length_of_region (l : List Slot) (i : Nat) (id : Nat) (mem : List Nat)
    (h : l.getD i Slot.uninit = Slot.region id mem) : i < l.length := by
  by_contra hge
  rw [List.getD_eq_default] at h
  · exact Slot.noConfusion h
  · omega

lemma mem_regionMS_of_getD (l : List Slot) :
    ∀ (i : Nat) (id : Nat) (mem : List Nat),
      l.getD i Slot.uninit = Slot.region id mem → id ∈ regionMS l := by
  induction l with
  | nil => intro i id mem h; simp [List.getD] at h
  | cons a rest ih =>
    intro i id mem h
    cases i with
    | zero =>
      simp only [List.getD, List.getElem?_cons_zero, Option.getD_some] at h
      subst h
      simp [regionMS, slotIds]
    | succ i =>
      simp only [List.getD_cons_succ] at h
      have := ih i id mem h
      simp [regionMS, this]

/-! Flag-read facts. -/

/-- The flag has been cleared and this worker has already observed every read it
will ever make of the value 1: from this state on, every read returns 0. -/
def flagDead (env : WEnv) (st : WState) : Prop :=
  ∃ s, env.shutdownAfter = some s ∧ s ≤ st.pollCount

lemma readFlag_snd_pollCount (env : WEnv) (st : WState) :
    (readFlag env st).2.pollCount = st.pollCount + 1 := by
  simp [readFlag]

lemma readFlag_false_of_dead (env : WEnv) (st : WState) (h : flagDead env st) :
    (readFlag env st).1 = false := by
  rcases h with ⟨s, hs, hle⟩
  simp [readFlag, hs]
  omega

lemma readFlag_true_lt (env : WEnv) (st : WState) (s : Nat)
    (hs : env.shutdownAfter = some s) (h : (readFlag env st).1 = true) :
    st.pollCount < s := by
  simp [readFlag, hs] at h
  exact h

/-- What one flag read keeps fixed. -/
lemma readFlag_pres (env : WEnv) (st : WState) :
    (readFlag env st).2.startTime = st.startTime ∧
    (readFlag env st).2.timeCalls = st.timeCalls ∧
    (readFlag env st).2.regions = st.regions ∧
    (readFlag env st).2.thread_tlb_flushes = st.thread_tlb_flushes ∧
    (readFlag env st).2.relCalls = st.relCalls ∧
    (readFlag env st).2.cleanCalls = st.cleanCalls ∧
    (readFlag env st).2.mapped = st.mapped ∧
    (readFlag env st).2.mapSucc = st.mapSucc ∧
    (readFlag env st).2.nextId = st.nextId ∧
    (readFlag env st).2.phaseIters = st.phaseIters := by
  simp [readFlag]

/-- Frame facts preserved by every phase of a cycle. -/
def framePres (st stf : WState) : Prop :=
  stf.startTime = st.startTime ∧ stf.timeCalls = st.timeCalls ∧
    stf.regions.length = st.regions.length ∧ st.pollCount ≤ stf.pollCount

lemma framePres_refl (st : WState) : framePres st st := ⟨rfl, rfl, rfl, le_refl _⟩

lemma framePres_trans {a b c : WState} (h1 : framePres a b) (h2 : framePres b c) :
    framePres a c := by
  obtain ⟨x1, x2, x3, x4⟩ := h1
  obtain ⟨y1, y2, y3, y4⟩ := h2
  exact ⟨y1.trans x1, y2.trans x2, y3.trans x3, x4.trans y4⟩

lemma framePres_readFlag (env : WEnv) (st : WState) :
    framePres st (readFlag env st).2 := by
  refine ⟨?_, ?_, ?_, ?_⟩ <;> simp [readFlag]

lemma framePres_tick (env : WEnv) (st : WState) :
    framePres st (tick env st) := by
  refine ⟨?_, ?_, ?_, ?_⟩ <;> simp [tick, readFlag]

lemma framePres_mapBody (env : WEnv) (cfg : thread_data) (i : Nat) (st : WState) :
    framePres st (mapBody env cfg i st) := by
  unfold mapBody
  split <;> exact ⟨rfl, rfl, by simp [List.length_set], le_refl _⟩

lemma framePres_accessBody (cfg : thread_data) (i : Nat) (st : WState) :
    framePres st (accessBody cfg i st) := by
  unfold accessBody
  split <;> first
  | exact framePres_refl _
  | exact ⟨rfl, rfl, by simp [List.length_set], le_refl _⟩

lemma framePres_relBody (env : WEnv) (i : Nat) (st : WState) :
    framePres st (relBody env i st) := by
  unfold relBody
  split
  · exact framePres_refl _
  · exact framePres_refl _
  · split <;> exact ⟨rfl, rfl, by simp [List.length_set], le_refl _⟩

lemma framePres_cleanBody (env : WEnv) (i : Nat) (st : WState) :
    framePres st (cleanBody env i st) := by
  unfold cleanBody
  split
  · exact framePres_refl _
  · exact framePres_refl _
  · split <;> exact framePres_refl _

lemma framePres_mapAux (env : WEnv) (cfg : thread_data) :
    ∀ (fuel i : Nat) (st : WState), framePres st (mapAux env cfg fuel i st) := by
  intro fuel
  induction fuel with
  | zero => intro i st; exact framePres_refl _
  | succ fuel ih =>
    intro i st
    unfold mapAux
    split
    · split
      · exact framePres_trans (framePres_tick env st)
          (framePres_trans (framePres_mapBody env cfg i _) (ih _ _))
      · exact framePres_readFlag env st
    · exact framePres_refl _

lemma framePres_accessAux (env : WEnv) (cfg : thread_data) :
    ∀ (fuel i : Nat) (st : WState), framePres st (accessAux env cfg fuel i st) := by
  intro fuel
  induction fuel with
  | zero => intro i st; exact framePres_refl _
  | succ fuel ih =>
    intro i st
    unfold accessAux
    split
    · split
      · exact framePres_trans (framePres_tick env st)
          (framePres_trans (framePres_accessBody cfg i _) (ih _ _))
      · exact framePres_readFlag env st
    · exact framePres_refl _

lemma framePres_releaseAux (env : WEnv) (cfg : thread_data) :
    ∀ (fuel i : Nat) (st : WState), framePres st (releaseAux env cfg fuel i st).1 := by
  intro fuel
  induction fuel with
  | zero => intro i st; exact framePres_refl _
  | succ fuel ih =>
    intro i st
    unfold releaseAux
    split
    · split
      · exact framePres_trans (framePres_tick env st)
          (framePres_trans (framePres_relBody env i _) (ih _ _))
      · exact framePres_readFlag env st
    · exact framePres_refl _

/-! Core invariant of a worker run: the flush counter mirrors the successful
release-phase munmaps, every munmap call consumed a distinct previously-mapped
region (ids are fresh and never reused), and flag reads / entered phase
iterations are consistently counted. -/

/-- Number of successful munmap calls recorded by the release phases so far. -/
def relTrue (st : WState) : Nat := (st.relCalls.filter (fun c => c.2)).length

/-- The multiset of region ids ever passed to munmap. -/
def usedMS (st : WState) : Multiset Nat :=
  ((st.relCalls.map Prod.fst : List Nat) : Multiset Nat) +
    ((st.cleanCalls.map Prod.fst : List Nat) : Multiset Nat)

/-- Core invariant, preserved by the whole cycle loop. -/
def CINV (env : WEnv) (cfg : thread_data) (st : WState) : Prop :=
  st.regions.length = cfg.iterations_per_cycle ∧
  st.thread_tlb_flushes = relTrue st ∧
  relTrue st + Multiset.card (regionMS st.regions) ≤ st.mapSucc ∧
  (usedMS st + regionMS st.regions).Nodup ∧
  (∀ id, id ∈ usedMS st + regionMS st.regions → id < st.nextId) ∧
  st.truePolls ≤ st.pollCount ∧
  (∀ s, env.shutdownAfter = some s → st.truePolls ≤ s) ∧
  st.phaseIters ≤ st.truePolls

lemma cinv_init (env : WEnv) (cfg : thread_data) : CINV env cfg (initState env cfg) := by
  refine ⟨?_, ?_, ?_, ?_, ?_, ?_, ?_, ?_⟩ <;>
    simp [initState, relTrue, usedMS, regionMS_replicate_uninit, Multiset.nodup_zero]

lemma readFlag_truePolls (env : WEnv) (st : WState) :
    (readFlag env st).2.truePolls =
      if (readFlag env st).1 = true then st.truePolls + 1 else st.truePolls := by
  simp [readFlag]

lemma cinv_readFlag (env : WEnv) (cfg : thread_data) (st : WState)
    (h : CINV env cfg st) : CINV env cfg (readFlag env st).2 := by
  obtain ⟨h1, h2, h3, h4, h5, h6, h7, h8⟩ := h
  obtain ⟨f1, f2, f3, f4, f5, f6, f7, f8, f9, f10⟩ := readFlag_pres env st
  have hpc := readFlag_snd_pollCount env st
  have htp := readFlag_truePolls env st
  refine ⟨?_, ?_, ?_, ?_, ?_, ?_, ?_, ?_⟩
  · rw [f3]; exact h1
  · rw [f4]; unfold relTrue; rw [f5]; exact h2
  · unfold relTrue; rw [f5, f3, f8]; exact h3
  · unfold usedMS; rw [f5, f6, f3]; exact h4
  · unfold usedMS; rw [f5, f6, f3, f9]; exact h5
  · rw [hpc, htp]; split <;> omega
  · intro s hs
    rw [htp]
    split
    · rename_i hv
      have := readFlag_true_lt env st s hs hv
      omega
    · exact h7 s hs
  · rw [f10, htp]; split <;> omega

lemma tick_pres (env : WEnv) (st : WState) :
    (tick env st).startTime = st.startTime ∧
    (tick env st).timeCalls = st.timeCalls ∧
    (tick env st).regions = st.regions ∧
    (tick env st).thread_tlb_flushes = st.thread_tlb_flushes ∧
    (tick env st).relCalls = st.relCalls ∧
    (tick env st).cleanCalls = st.cleanCalls ∧
    (tick env st).mapped = st.mapped ∧
    (tick env st).mapSucc = st.mapSucc ∧
    (tick env st).nextId = st.nextId ∧
    (tick env st).pollCount = st.pollCount + 1 ∧
    (tick env st).truePolls = (readFlag env st).2.truePolls ∧
    (tick env st).phaseIters = st.phaseIters + 1 := by
  refine ⟨?_, ?_, ?_, ?_, ?_, ?_, ?_, ?_, ?_, ?_, ?_, ?_⟩ <;> simp [tick, readFlag]

lemma cinv_tick (env : WEnv) (cfg : thread_data) (st : WState)
    (hv : (readFlag env st).1 = true) (h : CINV env cfg st) :
    CINV env cfg (tick env st) := by
  have h8 := h.2.2.2.2.2.2.2
  have h6 := h.2.2.2.2.2.1
  obtain ⟨r1, r2, r3, r4, r5, r6, r7, r8⟩ := cinv_readFlag env cfg st h
  obtain ⟨t1, t2, t3, t4, t5, t6, t7, t8, t9, t10, t11, t12⟩ := tick_pres env st
  obtain ⟨f1, f2, f3, f4, f5, f6, f7, f8, f9, f10⟩ := readFlag_pres env st
  have htp := readFlag_truePolls env st
  rw [hv, if_pos rfl] at htp
  refine ⟨?_, ?_, ?_, ?_, ?_, ?_, ?_, ?_⟩
  · rw [t3]; exact h.1
  · rw [t4]; unfold relTrue; rw [t5]; exact h.2.1
  · unfold relTrue; rw [t5, t3, t8]; exact h.2.2.1
  · unfold usedMS; rw [t5, t6, t3]; exact h.2.2.2.1
  · unfold usedMS; rw [t5, t6, t3, t9]; exact h.2.2.2.2.1
  · rw [t10, t11, htp]; omega
  · intro s hs
    rw [t11, htp]
    have := readFlag_true_lt env st s hs hv
    omega
  · rw [t12, t11, htp]; omega

lemma cinv_set_timeCalls (env : WEnv) (cfg : thread_data) (st : WState) (n : Nat)
    (h : CINV env cfg st) : CINV env cfg { st with timeCalls := n } := by
  obtain ⟨h1, h2, h3, h4, h5, h6, h7, h8⟩ := h
  exact ⟨h1, h2, h3, h4, h5, h6, h7, h8⟩

lemma cinv_cycleTop (env : WEnv) (cfg : thread_data) (st : WState)
    (h : CINV env cfg st) : CINV env cfg (cycleTop env st) :=
  cinv_set_timeCalls env cfg _ _ (cinv_readFlag env cfg st h)

lemma slotIds_card_le_one (v : Slot) : Multiset.card (slotIds v) ≤ 1 := by
  cases v <;> simp [slotIds]

lemma regionMS_set_le (l : List Slot) (i : Nat) (v : Slot) (h : i < l.length) :
    regionMS (l.set i v) ≤ regionMS l + slotIds v := by
  have hset := regionMS_set l i v h
  calc regionMS (l.set i v) ≤
      regionMS (l.set i v) + slotIds (l.getD i Slot.uninit) := Multiset.le_add_right _ _
    _ = regionMS l + slotIds v := hset

lemma regionMS_set_card (l : List Slot) (i : Nat) (v : Slot) (h : i < l.length) :
    Multiset.card (regionMS (l.set i v)) +
      Multiset.card (slotIds (l.getD i Slot.uninit)) =
      Multiset.card (regionMS l) + Multiset.card (slotIds v) := by
  have := congrArg Multiset.card (regionMS_set l i v h)
  simpa [Multiset.card_add] using this

lemma nodup_add_singleton (s : Multiset Nat) (x : Nat) (hs : s.Nodup) (hx : x ∉ s) :
    (s + {x}).Nodup := by
  rw [add_comm, Multiset.singleton_add]
  exact Multiset.nodup_cons.mpr ⟨hx, hs⟩

lemma cinv_mapBody (env : WEnv) (cfg : thread_data) (i : Nat) (st : WState)
    (hi : i < cfg.iterations_per_cycle) (h : CINV env cfg st) :
    CINV env cfg (mapBody env cfg i st) := by
  obtain ⟨h1, h2, h3, h4, h5, h6, h7, h8⟩ := h
  have hlen : i < st.regions.length := by omega
  unfold mapBody
  split
  · -- mmap succeeded: a fresh region id is placed in slot i
    have hset := regionMS_set_card st.regions i
      (Slot.region st.nextId (touchPages i cfg.pages_per_thread)) hlen
    have hle := regionMS_set_le st.regions i
      (Slot.region st.nextId (touchPages i cfg.pages_per_thread)) hlen
    have hle2 : regionMS (st.regions.set i
        (Slot.region st.nextId (touchPages i cfg.pages_per_thread))) ≤
        regionMS st.regions + {st.nextId} := hle
    have hnotmem : st.nextId ∉ usedMS st + regionMS st.regions := fun hmem =>
      lt_irrefl _ (h5 _ hmem)
    have hnodup2 : ((usedMS st + regionMS st.regions) + {st.nextId}).Nodup :=
      nodup_add_singleton _ _ h4 hnotmem
    have hco : Multiset.card (slotIds (st.regions.getD i Slot.uninit)) ≤ 1 :=
      slotIds_card_le_one _
    refine ⟨?_, ?_, ?_, ?_, ?_, ?_, ?_, ?_⟩ <;> dsimp only
    · simpa using h1
    · unfold relTrue at h2 ⊢; dsimp only; exact h2
    · unfold relTrue at h3 ⊢
      dsimp only
      have : Multiset.card (slotIds (Slot.region st.nextId
          (touchPages i cfg.pages_per_thread))) = 1 := by simp [slotIds]
      omega
    · show (usedMS st + regionMS (st.regions.set i
          (Slot.region st.nextId (touchPages i cfg.pages_per_thread)))).Nodup
      refine Multiset.nodup_of_le ?_ hnodup2
      rw [add_assoc]
      exact add_le_add_left hle2 _
    · show ∀ id, id ∈ usedMS st + regionMS (st.regions.set i
          (Slot.region st.nextId (touchPages i cfg.pages_per_thread))) →
          id < st.nextId + 1
      intro id hmem
      have hmem2 : id ∈ usedMS st + (regionMS st.regions + {st.nextId}) :=
        Multiset.mem_of_le (add_le_add_left hle2 _) hmem
      rw [Multiset.mem_add] at hmem2
      rcases hmem2 with hin | hin
      · exact lt_trans (h5 _ (Multiset.mem_add.mpr (Or.inl hin))) (Nat.lt_succ_self _)
      · rw [Multiset.mem_add] at hin
        rcases hin with hin | hin
        · exact lt_trans (h5 _ (Multiset.mem_add.mpr (Or.inr hin))) (Nat.lt_succ_self _)
        · simp at hin; omega
    · exact h6
    · exact h7
    · exact h8
  · -- mmap failed: slot i holds MAP_FAILED
    have hset := regionMS_set_card st.regions i Slot.mapFailed hlen
    have hle : regionMS (st.regions.set i Slot.mapFailed) ≤ regionMS st.regions := by
      have := regionMS_set_le st.regions i Slot.mapFailed hlen
      simpa [slotIds] using this
    refine ⟨?_, ?_, ?_, ?_, ?_, ?_, ?_, ?_⟩ <;> dsimp only
    · simpa using h1
    · unfold relTrue at h2 ⊢; dsimp only; exact h2
    · unfold relTrue at h3 ⊢
      dsimp only
      have := Multiset.card_le_card hle
      omega
    · show (usedMS st + regionMS (st.regions.set i Slot.mapFailed)).Nodup
      exact Multiset.nodup_of_le (add_le_add_left hle _) h4
    · show ∀ id, id ∈ usedMS st + regionMS (st.regions.set i Slot.mapFailed) →
          id < st.nextId
      intro id hmem
      exact h5 _ (Multiset.mem_of_le (add_le_add_left hle _) hmem)
    · exact h6
    · exact h7
    · exact h8

lemma relTrue_app (l : List (Nat × Bool)) (id : Nat) (b : Bool) :
    ((l ++ [(id, b)]).filter (fun c => c.2)).length =
      (l.filter (fun c => c.2)).length + (if b then 1 else 0) := by
  cases b <;> simp [List.filter_append]

lemma regionMS_drop (l : List Slot) (i : Nat) (h : i < l.length) :
    regionMS (l.drop i) = slotIds (l.getD i Slot.uninit) + regionMS (l.drop (i + 1)) := by
  rw [List.drop_eq_getElem_cons h]
  have : l.getD i Slot.uninit = l[i] := by
    simp [List.getD, List.getElem?_eq_getElem h]
  rw [this]
  rfl

lemma cinv_accessBody (env : WEnv) (cfg : thread_data) (i : Nat) (st : WState)
    (h : CINV env cfg st) : CINV env cfg (accessBody cfg i st) := by
  obtain ⟨h1, h2, h3, h4, h5, h6, h7, h8⟩ := h
  unfold accessBody
  split
  · exact ⟨h1, h2, h3, h4, h5, h6, h7, h8⟩
  · exact ⟨h1, h2, h3, h4, h5, h6, h7, h8⟩
  · rename_i id mem heq
    have hlen := getD_lt_length_of_region st.regions i id mem heq
    have hset := regionMS_set st.regions i
      (Slot.region id (accessRegion cfg.pages_per_thread i mem).1) hlen
    rw [heq] at hset
    have hMS : regionMS (st.regions.set i
        (Slot.region id (accessRegion cfg.pages_per_thread i mem).1)) =
        regionMS st.regions := by
      have hcan : regionMS (st.regions.set i
          (Slot.region id (accessRegion cfg.pages_per_thread i mem).1)) +
          ({id} : Multiset Nat) = regionMS st.regions + ({id} : Multiset Nat) := by
        simpa [slotIds] using hset
      exact add_right_cancel hcan
    refine ⟨?_, h2, ?_, ?_, ?_, h6, h7, h8⟩
    · simpa using h1
    · show relTrue st + Multiset.card (regionMS (st.regions.set i
        (Slot.region id (accessRegion cfg.pages_per_thread i mem).1))) ≤ st.mapSucc
      rw [hMS]; exact h3
    · show (usedMS st + regionMS (st.regions.set i
        (Slot.region id (accessRegion cfg.pages_per_thread i mem).1))).Nodup
      rw [hMS]; exact h4
    · show ∀ x, x ∈ usedMS st + regionMS (st.regions.set i
        (Slot.region id (accessRegion cfg.pages_per_thread i mem).1)) → x < st.nextId
      rw [hMS]; exact h5

lemma usedMS_relApp (st st2 : WState) (id : Nat) (b : Bool)
    (hrel : st2.relCalls = st.relCalls ++ [(id, b)])
    (hclean : st2.cleanCalls = st.cleanCalls) :
    usedMS st2 = usedMS st + {id} := by
  unfold usedMS
  rw [hrel, hclean, List.map_append, ← Multiset.coe_add]
  have h1 : (([(id, b)].map Prod.fst : List Nat) : Multiset Nat) = {id} := rfl
  rw [h1, add_assoc, add_comm ({id} : Multiset Nat), ← add_assoc]

lemma usedMS_cleanApp (st st2 : WState) (id : Nat) (b : Bool)
    (hrel : st2.relCalls = st.relCalls)
    (hclean : st2.cleanCalls = st.cleanCalls ++ [(id, b)]) :
    usedMS st2 = usedMS st + {id} := by
  unfold usedMS
  rw [hrel, hclean, List.map_append, ← Multiset.coe_add]
  have h1 : (([(id, b)].map Prod.fst : List Nat) : Multiset Nat) = {id} := rfl
  rw [h1, ← add_assoc]

lemma cinv_relBody (env : WEnv) (cfg : thread_data) (i : Nat) (st : WState)
    (h : CINV env cfg st) : CINV env cfg (relBody env i st) := by
  obtain ⟨h1, h2, h3, h4, h5, h6, h7, h8⟩ := h
  unfold relBody
  split
  · exact ⟨h1, h2, h3, h4, h5, h6, h7, h8⟩
  · exact ⟨h1, h2, h3, h4, h5, h6, h7, h8⟩
  · rename_i id mem heq
    have hlen := getD_lt_length_of_region st.regions i id mem heq
    have hset := regionMS_set st.regions i Slot.mapFailed hlen
    rw [heq] at hset
    have hMS : regionMS (st.regions.set i Slot.mapFailed) + ({id} : Multiset Nat) =
        regionMS st.regions := by
      simpa [slotIds] using hset
    have hcard : Multiset.card (regionMS (st.regions.set i Slot.mapFailed)) + 1 =
        Multiset.card (regionMS st.regions) := by
      have := congrArg Multiset.card hMS
      simpa [Multiset.card_add] using this
    have hswap : usedMS st + ({id} : Multiset Nat) +
        regionMS (st.regions.set i Slot.mapFailed) =
        usedMS st + regionMS st.regions := by
      rw [add_assoc, add_comm ({id} : Multiset Nat), hMS]
    split
    · -- munmap succeeded
      have husd := usedMS_relApp st
        { st with munmapCalls := st.munmapCalls + 1,
                  thread_tlb_flushes := st.thread_tlb_flushes + 1,
                  relCalls := st.relCalls ++ [(id, true)],
                  regions := st.regions.set i Slot.mapFailed,
                  mapped := st.mapped.erase id } id true rfl rfl
      refine ⟨?_, ?_, ?_, ?_, ?_, h6, h7, h8⟩
      · simpa using h1
      · show st.thread_tlb_flushes + 1 =
          ((st.relCalls ++ [(id, true)]).filter (fun c => c.2)).length
        rw [relTrue_app]
        unfold relTrue at h2
        simp [h2]
      · show ((st.relCalls ++ [(id, true)]).filter (fun c => c.2)).length +
          Multiset.card (regionMS (st.regions.set i Slot.mapFailed)) ≤ st.mapSucc
        rw [relTrue_app]
        unfold relTrue at h3
        simp only [if_true]
        omega
      · show (usedMS _ + regionMS (st.regions.set i Slot.mapFailed)).Nodup
        rw [husd, hswap]
        exact h4
      · show ∀ x, x ∈ usedMS _ + regionMS (st.regions.set i Slot.mapFailed) →
          x < st.nextId
        rw [husd, hswap]
        exact h5
    · -- munmap failed
      have husd := usedMS_relApp st
        { st with munmapCalls := st.munmapCalls + 1,
                  relCalls := st.relCalls ++ [(id, false)],
                  regions := st.regions.set i Slot.mapFailed } id false rfl rfl
      refine ⟨?_, ?_, ?_, ?_, ?_, h6, h7, h8⟩
      · simpa using h1
      · show st.thread_tlb_flushes =
          ((st.relCalls ++ [(id, false)]).filter (fun c => c.2)).length
        rw [relTrue_app]
        unfold relTrue at h2
        simp [h2]
      · show ((st.relCalls ++ [(id, false)]).filter (fun c => c.2)).length +
          Multiset.card (regionMS (st.regions.set i Slot.mapFailed)) ≤ st.mapSucc
        rw [relTrue_app]
        unfold relTrue at h3
        simp
        omega
      · show (usedMS _ + regionMS (st.regions.set i Slot.mapFailed)).Nodup
        rw [husd, hswap]
        exact h4
      · show ∀ x, x ∈ usedMS _ + regionMS (st.regions.set i Slot.mapFailed) →
          x < st.nextId
        rw [husd, hswap]
        exact h5

lemma cinv_mapAux (env : WEnv) (cfg : thread_data) :
    ∀ (fuel i : Nat) (st : WState), CINV env cfg st →
      CINV env cfg (mapAux env cfg fuel i st) := by
  intro fuel
  induction fuel with
  | zero => intro i st h; exact h
  | succ fuel ih =>
    intro i st h
    unfold mapAux
    split
    · split
      · rename_i hi hv
        exact ih _ _ (cinv_mapBody env cfg i _ hi (cinv_tick env cfg st hv h))
      · exact cinv_readFlag env cfg st h
    · exact h

lemma cinv_accessAux (env : WEnv) (cfg : thread_data) :
    ∀ (fuel i : Nat) (st : WState), CINV env cfg st →
      CINV env cfg (accessAux env cfg fuel i st) := by
  intro fuel
  induction fuel with
  | zero => intro i st h; exact h
  | succ fuel ih =>
    intro i st h
    unfold accessAux
    split
    · split
      · rename_i hi hv
        exact ih _ _ (cinv_accessBody env cfg i _ (cinv_tick env cfg st hv h))
      · exact cinv_readFlag env cfg st h
    · exact h

lemma cinv_releaseAux (env : WEnv) (cfg : thread_data) :
    ∀ (fuel i : Nat) (st : WState), CINV env cfg st →
      CINV env cfg (releaseAux env cfg fuel i st).1 := by
  intro fuel
  induction fuel with
  | zero => intro i st h; exact h
  | succ fuel ih =>
    intro i st h
    unfold releaseAux
    split
    · split
      · rename_i hi hv
        exact ih _ _ (cinv_relBody env cfg i _ (cinv_tick env cfg st hv h))
      · exact cinv_readFlag env cfg st h
    · exact h

lemma cinv_cyclePhases (env : WEnv) (cfg : thread_data) (st : WState)
    (h : CINV env cfg st) : CINV env cfg (cyclePhases env cfg st) :=
  cinv_releaseAux env cfg _ _ _ (cinv_accessAux env cfg _ _ _ (cinv_mapAux env cfg _ _ _ h))

lemma runCycles_cinv (env : WEnv) (cfg : thread_data) :
    ∀ (fuel : Nat) (st st' : WState), CINV env cfg st →
      runCycles env cfg fuel st = some st' → CINV env cfg st' := by
  intro fuel
  induction fuel with
  | zero => intro st st' _ hrun; exact absurd hrun (by simp [runCycles])
  | succ fuel ih =>
    intro st st' h hrun
    unfold runCycles at hrun
    split at hrun
    · split at hrun
      · have := Option.some.inj hrun
        subst this
        exact cinv_cycleTop env cfg st h
      · exact ih _ _ (cinv_cyclePhases env cfg _ (cinv_cycleTop env cfg st h)) hrun
    · have := Option.some.inj hrun
      subst this
      exact cinv_readFlag env cfg st h

/-- Fields the cleanup loop never touches. -/
lemma cleanBody_pres (env : WEnv) (i : Nat) (st : WState) :
    (cleanBody env i st).thread_tlb_flushes = st.thread_tlb_flushes ∧
    (cleanBody env i st).relCalls = st.relCalls ∧
    (cleanBody env i st).mapSucc = st.mapSucc ∧
    (cleanBody env i st).regions = st.regions ∧
    (cleanBody env i st).phaseIters = st.phaseIters ∧
    (cleanBody env i st).truePolls = st.truePolls ∧
    (cleanBody env i st).nextId = st.nextId := by
  unfold cleanBody
  split
  · exact ⟨rfl, rfl, rfl, rfl, rfl, rfl, rfl⟩
  · exact ⟨rfl, rfl, rfl, rfl, rfl, rfl, rfl⟩
  · split <;> exact ⟨rfl, rfl, rfl, rfl, rfl, rfl, rfl⟩

lemma cleanupAux_pres (env : WEnv) (cfg : thread_data) :
    ∀ (fuel i : Nat) (st : WState),
      (cleanupAux env cfg fuel i st).thread_tlb_flushes = st.thread_tlb_flushes ∧
      (cleanupAux env cfg fuel i st).relCalls = st.relCalls ∧
      (cleanupAux env cfg fuel i st).mapSucc = st.mapSucc ∧
      (cleanupAux env cfg fuel i st).regions = st.regions ∧
      (cleanupAux env cfg fuel i st).phaseIters = st.phaseIters ∧
      (cleanupAux env cfg fuel i st).truePolls = st.truePolls ∧
      (cleanupAux env cfg fuel i st).nextId = st.nextId := by
  intro fuel
  induction fuel with
  | zero => intro i st; exact ⟨rfl, rfl, rfl, rfl, rfl, rfl, rfl⟩
  | succ fuel ih =>
    intro i st
    unfold cleanupAux
    split
    · obtain ⟨c1, c2, c3, c4, c5, c6, c7⟩ := cleanBody_pres env i st
      obtain ⟨d1, d2, d3, d4, d5, d6, d7⟩ := ih (i + 1) (cleanBody env i st)
      exact ⟨d1.trans c1, d2.trans c2, d3.trans c3, d4.trans c4,
        d5.trans c5, d6.trans c6, d7.trans c7⟩
    · exact ⟨rfl, rfl, rfl, rfl, rfl, rfl, rfl⟩

lemma cleanupAux_nodup (env : WEnv) (cfg : thread_data) :
    ∀ (fuel i : Nat) (st : WState),
      st.regions.length = cfg.iterations_per_cycle →
      cfg.iterations_per_cycle ≤ i + fuel →
      (usedMS st + regionMS (st.regions.drop i)).Nodup →
      (usedMS (cleanupAux env cfg fuel i st)).Nodup := by
  intro fuel
  induction fuel with
  | zero =>
    intro i st hlen hle hnd
    have : st.regions.drop i = [] := List.drop_eq_nil_of_le (by omega)
    rw [this] at hnd
    simpa [regionMS] using hnd
  | succ fuel ih =>
    intro i st hlen hle hnd
    unfold cleanupAux
    split
    · rename_i hi
      have hilen : i < st.regions.length := by omega
      have hdrop := regionMS_drop st.regions i hilen
      unfold cleanBody
      split
      · -- MAP_FAILED slot: skipped
        rename_i heq
        refine ih (i + 1) st hlen (by omega) ?_
        rw [hdrop, heq] at hnd
        simpa [slotIds] using hnd
      · -- uninitialized slot: only the instrumentation counter changes
        rename_i heq
        refine ih (i + 1) _ (by simpa using hlen) (by omega) ?_
        show (usedMS st + regionMS (st.regions.drop (i + 1))).Nodup
        rw [hdrop, heq] at hnd
        simpa [slotIds] using hnd
      · -- live region: its id moves from the table to the cleanup-call list
        rename_i id mem heq
        rw [hdrop, heq] at hnd
        have hnd2 : ∀ (b : Bool), ((usedMS st + {id}) +
            regionMS (st.regions.drop (i + 1))).Nodup := by
          intro b
          have : (usedMS st + {id}) + regionMS (st.regions.drop (i + 1)) =
              usedMS st + (slotIds (Slot.region id mem) +
                regionMS (st.regions.drop (i + 1))) := by
            show _ = usedMS st + (({id} : Multiset Nat) + _)
            rw [← add_assoc]
          rw [this]
          exact hnd
        split
        · refine ih (i + 1) _ (by simpa using hlen) (by omega) ?_
          have husd := usedMS_cleanApp st
            { st with munmapCalls := st.munmapCalls + 1,
                      cleanCalls := st.cleanCalls ++ [(id, true)],
                      mapped := st.mapped.erase id } id true rfl rfl
          show (usedMS _ + regionMS (st.regions.drop (i + 1))).Nodup
          rw [husd]
          exact hnd2 true
        · refine ih (i + 1) _ (by simpa using hlen) (by omega) ?_
          have husd := usedMS_cleanApp st
            { st with munmapCalls := st.munmapCalls + 1,
                      cleanCalls := st.cleanCalls ++ [(id, false)] } id false rfl rfl
          show (usedMS _ + regionMS (st.regions.drop (i + 1))).Nodup
          rw [husd]
          exact hnd2 false
    · rename_i hi
      have : st.regions.drop i = [] := List.drop_eq_nil_of_le (by omega)
      rw [this] at hnd
      simpa [regionMS] using hnd

/-- The worker-level consequences of the core invariant, on every exit path. -/
lemma worker_facts (env : WEnv) (cfg : thread_data) (fuel : Nat) (out : WOut)
    (hw : tlb_flush_worker env cfg fuel = some out) :
    out.final.thread_tlb_flushes =
      (out.final.relCalls.filter (fun c => c.2)).length ∧
    out.final.thread_tlb_flushes ≤ out.final.mapSucc ∧
    (out.final.relCalls.map Prod.fst ++ out.final.cleanCalls.map Prod.fst).Nodup ∧
    (∀ s, env.shutdownAfter = some s → out.final.phaseIters ≤ s) := by
  unfold tlb_flush_worker at hw
  split at hw
  · rename_i halloc
    rcases hrc : runCycles env cfg fuel (initState env cfg) with _ | st
    · rw [hrc] at hw; exact absurd hw (by simp)
    · rw [hrc] at hw
      have hout := Option.some.inj hw
      have hcinv : CINV env cfg st :=
        runCycles_cinv env cfg fuel _ st (cinv_init env cfg) hrc
      obtain ⟨h1, h2, h3, h4, h5, h6, h7, h8⟩ := hcinv
      obtain ⟨c1, c2, c3, c4, c5, c6, c7⟩ :=
        cleanupAux_pres env cfg cfg.iterations_per_cycle 0 st
      have hnodup : (usedMS (cleanupAux env cfg cfg.iterations_per_cycle 0 st)).Nodup := by
        refine cleanupAux_nodup env cfg cfg.iterations_per_cycle 0 st h1 (by omega) ?_
        simpa using h4
      rw [← hout]
      refine ⟨?_, ?_, ?_, ?_⟩
      · show (cleanupAux env cfg cfg.iterations_per_cycle 0 st).thread_tlb_flushes = _
        rw [c1, c2]
        exact h2
      · show (cleanupAux env cfg cfg.iterations_per_cycle 0 st).thread_tlb_flushes ≤ _
        rw [c1, c3]
        unfold relTrue at h2 h3
        omega
      · have hn := hnodup
        unfold usedMS at hn
        rw [Multiset.coe_add, Multiset.coe_nodup] at hn
        exact hn
      · intro s hs
        show (cleanupAux env cfg cfg.iterations_per_cycle 0 st).phaseIters ≤ s
        rw [c5]
        exact le_trans h8 (h7 s hs)
  · have hout := Option.some.inj hw
    rw [← hout]
    refine ⟨by simp [allocFailState], by simp [allocFailState],
      by simp [allocFailState], ?_⟩
    intro s _
    simp [allocFailState]

/-! Invariant for the cleanup claim C3: the OS view of mapped regions equals the
multiset of ids held in the table, and mapped-count bookkeeping balances. -/

/-- No slot at an index ≥ `i` holds a live region. -/
def noRegionFrom (i : Nat) (l : List Slot) : Prop :=
  ∀ k, i ≤ k → slotIds (l.getD k Slot.uninit) = 0

/-- C3 invariant: the regions the OS still has mapped are exactly those whose
pointers sit in the table, and successful mmaps split into still-mapped plus
successfully munmapped. -/
def INV3 (cfg : thread_data) (st : WState) : Prop :=
  st.regions.length = cfg.iterations_per_cycle ∧
  (st.mapped : Multiset Nat) = regionMS st.regions ∧
  st.mapped.length + releasedCount st = st.mapSucc

lemma slotIds_getD_replicate (n : Nat) :
    ∀ k, slotIds ((List.replicate n Slot.uninit).getD k Slot.uninit) = 0 := by
  induction n with
  | zero => intro k; simp [List.getD, slotIds]
  | succ n ih =>
    intro k
    cases k with
    | zero => simp [List.replicate_succ, List.getD, slotIds]
    | succ k => simpa [List.replicate_succ, List.getD_cons_succ] using ih k

lemma inv3_init (env : WEnv) (cfg : thread_data) : INV3 cfg (initState env cfg) := by
  refine ⟨?_, ?_, ?_⟩ <;>
    simp [initState, releasedCount, regionMS_replicate_uninit]

lemma releasedCount_relApp (st st2 : WState) (id : Nat) (b : Bool)
    (hrel : st2.relCalls = st.relCalls ++ [(id, b)])
    (hclean : st2.cleanCalls = st.cleanCalls) :
    releasedCount st2 = releasedCount st + (if b then 1 else 0) := by
  unfold releasedCount
  rw [hrel, hclean, relTrue_app]
  omega

lemma releasedCount_cleanApp (st st2 : WState) (id : Nat) (b : Bool)
    (hrel : st2.relCalls = st.relCalls)
    (hclean : st2.cleanCalls = st.cleanCalls ++ [(id, b)]) :
    releasedCount st2 = releasedCount st + (if b then 1 else 0) := by
  unfold releasedCount
  rw [hrel, hclean, relTrue_app]
  omega

lemma inv3_readFlag (env : WEnv) (cfg : thread_data) (st : WState)
    (h : INV3 cfg st) : INV3 cfg (readFlag env st).2 := by
  obtain ⟨h1, h2, h3⟩ := h
  obtain ⟨f1, f2, f3, f4, f5, f6, f7, f8, f9, f10⟩ := readFlag_pres env st
  refine ⟨?_, ?_, ?_⟩
  · rw [f3]; exact h1
  · rw [f7, f3]; exact h2
  · unfold releasedCount; rw [f7, f5, f6, f8]; exact h3

lemma inv3_tick (env : WEnv) (cfg : thread_data) (st : WState)
    (h : INV3 cfg st) : INV3 cfg (tick env st) := by
  obtain ⟨h1, h2, h3⟩ := h
  obtain ⟨t1, t2, t3, t4, t5, t6, t7, t8, t9, t10, t11, t12⟩ := tick_pres env st
  refine ⟨?_, ?_, ?_⟩
  · rw [t3]; exact h1
  · rw [t7, t3]; exact h2
  · unfold releasedCount; rw [t7, t5, t6, t8]; exact h3

lemma inv3_mapBody (env : WEnv) (cfg : thread_data) (i : Nat) (st : WState)
    (hi : i < cfg.iterations_per_cycle)
    (hnr : slotIds (st.regions.getD i Slot.uninit) = 0)
    (h : INV3 cfg st) : INV3 cfg (mapBody env cfg i st) := by
  obtain ⟨h1, h2, h3⟩ := h
  have hlen : i < st.regions.length := by omega
  unfold mapBody
  split
  · have hset := regionMS_set st.regions i
      (Slot.region st.nextId (touchPages i cfg.pages_per_thread)) hlen
    rw [hnr, add_zero] at hset
    refine ⟨by simpa using h1, ?_, ?_⟩
    · show ((st.mapped ++ [st.nextId] : List Nat) : Multiset Nat) = _
      rw [← Multiset.coe_add]
      have hsing : (([st.nextId] : List Nat) : Multiset Nat) = {st.nextId} := rfl
      rw [hsing, h2, hset]
      rfl
    · show (st.mapped ++ [st.nextId]).length + releasedCount _ = st.mapSucc + 1
      have hrc : releasedCount (mapBody env cfg i st) = releasedCount st := by
        unfold mapBody releasedCount
        split <;> rfl
      unfold mapBody at hrc
      rw [if_pos (by assumption)] at hrc
      rw [hrc]
      simp only [List.length_append, List.length_cons, List.length_nil]
      omega
  · have hset := regionMS_set st.regions i Slot.mapFailed hlen
    rw [hnr, add_zero] at hset
    have hMS : regionMS (st.regions.set i Slot.mapFailed) = regionMS st.regions := by
      simpa [slotIds] using hset
    refine ⟨by simpa using h1, ?_, ?_⟩
    · show (st.mapped : Multiset Nat) = regionMS (st.regions.set i Slot.mapFailed)
      rw [hMS]; exact h2
    · exact h3

lemma inv3_accessBody (env : WEnv) (cfg : thread_data) (i : Nat) (st : WState)
    (h : INV3 cfg st) : INV3 cfg (accessBody cfg i st) := by
  obtain ⟨h1, h2, h3⟩ := h
  unfold accessBody
  split
  · exact ⟨h1, h2, h3⟩
  · exact ⟨h1, h2, h3⟩
  · rename_i id mem heq
    have hlen := getD_lt_length_of_region st.regions i id mem heq
    have hset := regionMS_set st.regions i
      (Slot.region id (accessRegion cfg.pages_per_thread i mem).1) hlen
    rw [heq] at hset
    have hMS : regionMS (st.regions.set i
        (Slot.region id (accessRegion cfg.pages_per_thread i mem).1)) =
        regionMS st.regions := by
      have hcan : regionMS (st.regions.set i
          (Slot.region id (accessRegion cfg.pages_per_thread i mem).1)) +
          ({id} : Multiset Nat) = regionMS st.regions + ({id} : Multiset Nat) := by
        simpa [slotIds] using hset
      exact add_right_cancel hcan
    refine ⟨by simpa using h1, ?_, h3⟩
    show (st.mapped : Multiset Nat) = regionMS (st.regions.set i _)
    rw [hMS]; exact h2

lemma erase_add_singleton (M : Multiset Nat) (id : Nat) :
    (M + {id}).erase id = M := by
  rw [add_comm, Multiset.singleton_add, Multiset.erase_cons_head]

lemma inv3_relBody (env : WEnv) (cfg : thread_data) (i : Nat) (st : WState)
    (hok : ∀ k, env.munmapOk k = true)
    (h : INV3 cfg st) : INV3 cfg (relBody env i st) := by
  obtain ⟨h1, h2, h3⟩ := h
  unfold relBody
  split
  · exact ⟨h1, h2, h3⟩
  · exact ⟨h1, h2, h3⟩
  · rename_i id mem heq
    have hlen := getD_lt_length_of_region st.regions i id mem heq
    have hset := regionMS_set st.regions i Slot.mapFailed hlen
    rw [heq] at hset
    have hMS : regionMS (st.regions.set i Slot.mapFailed) + ({id} : Multiset Nat) =
        regionMS st.regions := by
      simpa [slotIds] using hset
    have hmem : id ∈ st.mapped := by
      have : id ∈ (st.mapped : Multiset Nat) := by
        rw [h2, ← hMS]
        simp
      simpa using this
    split
    · refine ⟨by simpa using h1, ?_, ?_⟩
      · show ((st.mapped.erase id : List Nat) : Multiset Nat) =
          regionMS (st.regions.set i Slot.mapFailed)
        rw [← Multiset.coe_erase, h2, ← hMS, erase_add_singleton]
      · show (st.mapped.erase id).length +
          releasedCount _ = st.mapSucc
        have hrc := releasedCount_relApp st
          { st with munmapCalls := st.munmapCalls + 1,
                    thread_tlb_flushes := st.thread_tlb_flushes + 1,
                    relCalls := st.relCalls ++ [(id, true)],
                    regions := st.regions.set i Slot.mapFailed,
                    mapped := st.mapped.erase id } id true rfl rfl
        rw [hrc]
        have hlenm := List.length_erase_of_mem hmem
        have hpos : 0 < st.mapped.length := List.length_pos_of_mem hmem
        simp only [if_true]
        omega
    · rename_i hmo
      exact absurd (hok st.munmapCalls) (by simp [hmo])

lemma noRegionFrom_set (l : List Slot) (i : Nat) (v : Slot)
    (h : noRegionFrom i l) : noRegionFrom (i + 1) (l.set i v) := by
  intro k hk
  rw [getD_set_ne l i k v Slot.uninit (by omega)]
  exact h k (by omega)

lemma mapBody_regions (env : WEnv) (cfg : thread_data) (i : Nat) (st : WState) :
    ∃ v, (mapBody env cfg i st).regions = st.regions.set i v := by
  unfold mapBody
  split
  · exact ⟨_, rfl⟩
  · exact ⟨_, rfl⟩

lemma mapAux_inv3 (env : WEnv) (cfg : thread_data) :
    ∀ (fuel i : Nat) (st : WState), INV3 cfg st → noRegionFrom i st.regions →
      INV3 cfg (mapAux env cfg fuel i st) := by
  intro fuel
  induction fuel with
  | zero => intro i st h _; exact h
  | succ fuel ih =>
    intro i st h hnr
    unfold mapAux
    split
    · split
      · rename_i hi hv
        have htick := inv3_tick env cfg st h
        have htickreg : (tick env st).regions = st.regions := (tick_pres env st).2.2.1
        refine ih (i + 1) _ ?_ ?_
        · refine inv3_mapBody env cfg i _ hi ?_ htick
          rw [htickreg]
          exact hnr i (le_refl i)
        · show noRegionFrom (i + 1) (mapBody env cfg i (tick env st)).regions
          obtain ⟨v, hv2⟩ := mapBody_regions env cfg i (tick env st)
          rw [hv2, htickreg]
          exact noRegionFrom_set st.regions i v hnr
      · exact inv3_readFlag env cfg st h
    · exact h

lemma accessAux_inv3 (env : WEnv) (cfg : thread_data) :
    ∀ (fuel i : Nat) (st : WState), INV3 cfg st →
      INV3 cfg (accessAux env cfg fuel i st) := by
  intro fuel
  induction fuel with
  | zero => intro i st h; exact h
  | succ fuel ih =>
    intro i st h
    unfold accessAux
    split
    · split
      · exact ih _ _ (inv3_accessBody env cfg _ _ (inv3_tick env cfg st h))
      · exact inv3_readFlag env cfg st h
    · exact h

lemma releaseAux_inv3 (env : WEnv) (cfg : thread_data)
    (hok : ∀ k, env.munmapOk k = true) :
    ∀ (fuel i : Nat) (st : WState), INV3 cfg st →
      INV3 cfg (releaseAux env cfg fuel i st).1 := by
  intro fuel
  induction fuel with
  | zero => intro i st h; exact h
  | succ fuel ih =>
    intro i st h
    unfold releaseAux
    split
    · split
      · exact ih _ _ (inv3_relBody env cfg _ _ hok (inv3_tick env cfg st h))
      · exact inv3_readFlag env cfg st h
    · exact h

lemma flagDead_of_readFlag_false (env : WEnv) (st : WState)
    (h : (readFlag env st).1 = false) : flagDead env (readFlag env st).2 := by
  rcases hsd : env.shutdownAfter with _ | s
  · simp [readFlag, hsd] at h
  · refine ⟨s, hsd, ?_⟩
    simp [readFlag, hsd] at h ⊢
    omega

lemma relBody_slot_cleared (env : WEnv) (i : Nat) (st : WState)
    (hlen : i < st.regions.length) :
    slotIds ((relBody env i st).regions.getD i Slot.uninit) = 0 := by
  rcases hslot : st.regions.getD i Slot.uninit with _ | _ | ⟨id, mem⟩
  · simp only [relBody, hslot, slotIds]
  · simp only [relBody, hslot, slotIds]
  · simp only [relBody, hslot]
    split <;>
      simp only [getD_set_self st.regions i Slot.mapFailed Slot.uninit hlen, slotIds]

lemma relBody_other_slots (env : WEnv) (i : Nat) (st : WState) (k : Nat)
    (hk : k ≠ i) :
    (relBody env i st).regions.getD k Slot.uninit =
      st.regions.getD k Slot.uninit := by
  rcases hslot : st.regions.getD i Slot.uninit with _ | _ | ⟨id, mem⟩
  · simp only [relBody, hslot]
  · simp only [relBody, hslot]
  · simp only [relBody, hslot]
    split <;> exact getD_set_ne _ _ _ _ _ (fun he => hk he.symm)

/-- After a release phase: either no slot holds a live region any more, or the
flag is dead (every future read returns 0, so the loop is about to exit). -/
lemma releaseAux_post (env : WEnv) (cfg : thread_data) :
    ∀ (fuel i : Nat) (st : WState),
      st.regions.length = cfg.iterations_per_cycle →
      (∀ k, k < i → slotIds (st.regions.getD k Slot.uninit) = 0) →
      cfg.iterations_per_cycle ≤ i + fuel →
      (noRegionFrom 0 (releaseAux env cfg fuel i st).1.regions ∨
        flagDead env (releaseAux env cfg fuel i st).1) := by
  intro fuel
  induction fuel with
  | zero =>
    intro i st hlen hbelow hle
    left
    show noRegionFrom 0 st.regions
    intro k _
    by_cases hk : k < i
    · exact hbelow k hk
    · rw [List.getD_eq_default]
      · rfl
      · omega
  | succ fuel ih =>
    intro i st hlen hbelow hle
    unfold releaseAux
    split
    · rename_i hi
      split
      · rename_i hv
        have htickreg : (tick env st).regions = st.regions := (tick_pres env st).2.2.1
        have hrblen : (relBody env i (tick env st)).regions.length =
            st.regions.length := by
          have := (framePres_relBody env i (tick env st)).2.2.1
          rw [this, htickreg]
        refine ih (i + 1) (relBody env i (tick env st)) (by rw [hrblen]; exact hlen)
          ?_ (by omega)
        intro k hk
        by_cases hki : k < i
        · rw [relBody_other_slots env i (tick env st) k (by omega), htickreg]
          exact hbelow k hki
        · have hkeq : k = i := by omega
          rw [hkeq]
          have hlt : i < (tick env st).regions.length := by rw [htickreg]; omega
          exact relBody_slot_cleared env i (tick env st) hlt
      · rename_i hv
        right
        exact flagDead_of_readFlag_false env st (by simpa using hv)
    · rename_i hi
      left
      show noRegionFrom 0 st.regions
      intro k _
      by_cases hk : k < i
      · exact hbelow k hk
      · rw [List.getD_eq_default]
        · rfl
        · omega

lemma cycleTop_regions (env : WEnv) (st : WState) :
    (cycleTop env st).regions = st.regions := by
  simp [cycleTop, readFlag]

lemma inv3_cycleTop (env : WEnv) (cfg : thread_data) (st : WState)
    (h : INV3 cfg st) : INV3 cfg (cycleTop env st) := by
  obtain ⟨h1, h2, h3⟩ := inv3_readFlag env cfg st h
  exact ⟨h1, h2, h3⟩

lemma runCycles_inv3 (env : WEnv) (cfg : thread_data)
    (hok : ∀ k, env.munmapOk k = true) :
    ∀ (fuel : Nat) (st st' : WState), INV3 cfg st →
      (noRegionFrom 0 st.regions ∨ flagDead env st) →
      runCycles env cfg fuel st = some st' → INV3 cfg st' := by
  intro fuel
  induction fuel with
  | zero => intro st st' _ _ h; exact absurd h (by simp [runCycles])
  | succ fuel ih =>
    intro st st' hinv hdisj hrun
    unfold runCycles at hrun
    split at hrun
    · rename_i hv
      have hnr : noRegionFrom 0 st.regions := by
        rcases hdisj with h | h
        · exact h
        · rw [readFlag_false_of_dead env st h] at hv
          exact absurd hv (by simp)
      split at hrun
      · have := Option.some.inj hrun
        subst this
        exact inv3_cycleTop env cfg st hinv
      · have htop := inv3_cycleTop env cfg st hinv
        have hmap3 : INV3 cfg (mapAux env cfg cfg.iterations_per_cycle 0
            (cycleTop env st)) := by
          refine mapAux_inv3 env cfg _ 0 _ htop ?_
          rw [cycleTop_regions]
          intro k _
          exact hnr k (Nat.zero_le k)
        have hacc3 : INV3 cfg (accessAux env cfg cfg.iterations_per_cycle 0
            (mapAux env cfg cfg.iterations_per_cycle 0 (cycleTop env st))) :=
          accessAux_inv3 env cfg _ 0 _ hmap3
        refine ih _ _ ?_ ?_ hrun
        · exact releaseAux_inv3 env cfg hok _ 0 _ hacc3
        · show noRegionFrom 0 (cyclePhases env cfg (cycleTop env st)).regions ∨
            flagDead env (cyclePhases env cfg (cycleTop env st))
          unfold cyclePhases
          exact releaseAux_post env cfg cfg.iterations_per_cycle 0 _
            hacc3.1 (by omega) (by omega)
    · have := Option.some.inj hrun
      subst this
      exact inv3_readFlag env cfg st hinv

lemma cleanupAux_inv3 (env : WEnv) (cfg : thread_data)
    (hok : ∀ k, env.munmapOk k = true) :
    ∀ (fuel i : Nat) (st : WState),
      st.regions.length = cfg.iterations_per_cycle →
      cfg.iterations_per_cycle ≤ i + fuel →
      (st.mapped : Multiset Nat) = regionMS (st.regions.drop i) →
      st.mapped.length + releasedCount st = st.mapSucc →
      ((cleanupAux env cfg fuel i st).mapped = [] ∧
        releasedCount (cleanupAux env cfg fuel i st) =
          (cleanupAux env cfg fuel i st).mapSucc) := by
  intro fuel
  induction fuel with
  | zero =>
    intro i st hlen hle hmap hcnt
    have hdrop : st.regions.drop i = [] := List.drop_eq_nil_of_le (by omega)
    rw [hdrop] at hmap
    have hmapped : st.mapped = [] := by
      have h0 : (st.mapped : Multiset Nat) = 0 := by rw [hmap]; rfl
      rwa [Multiset.coe_eq_zero] at h0
    refine ⟨hmapped, ?_⟩
    show releasedCount st = st.mapSucc
    rw [hmapped] at hcnt
    simpa using hcnt
  | succ fuel ih =>
    intro i st hlen hle hmap hcnt
    unfold cleanupAux
    split
    · rename_i hi
      have hilen : i < st.regions.length := by omega
      have hdrop := regionMS_drop st.regions i hilen
      unfold cleanBody
      split
      · -- MAP_FAILED slot: untouched
        rename_i heq
        refine ih (i + 1) st hlen (by omega) ?_ hcnt
        rw [hmap, hdrop, heq]
        simp [slotIds]
      · -- never-written slot: only the instrumentation counter changes
        rename_i heq
        refine ih (i + 1) _ (by simpa using hlen) (by omega) ?_ hcnt
        show (st.mapped : Multiset Nat) = regionMS (st.regions.drop (i + 1))
        rw [hmap, hdrop, heq]
        simp [slotIds]
      · -- live region: munmapped (all munmaps succeed by hypothesis)
        rename_i id mem heq
        rw [heq] at hdrop
        have hmemid : id ∈ st.mapped := by
          have : id ∈ (st.mapped : Multiset Nat) := by
            rw [hmap, hdrop]
            simp [slotIds]
          simpa using this
        split
        · refine ih (i + 1) _ (by simpa using hlen) (by omega) ?_ ?_
          · show ((st.mapped.erase id : List Nat) : Multiset Nat) =
              regionMS (st.regions.drop (i + 1))
            rw [← Multiset.coe_erase, hmap, hdrop]
            show (slotIds (Slot.region id mem) +
              regionMS (st.regions.drop (i + 1))).erase id = _
            have : slotIds (Slot.region id mem) +
                regionMS (st.regions.drop (i + 1)) =
                id ::ₘ regionMS (st.regions.drop (i + 1)) := by
              show ({id} : Multiset Nat) + _ = _
              rw [Multiset.singleton_add]
            rw [this, Multiset.erase_cons_head]
          · show (st.mapped.erase id).length + releasedCount _ = st.mapSucc
            have hrc := releasedCount_cleanApp st
              { st with munmapCalls := st.munmapCalls + 1,
                        cleanCalls := st.cleanCalls ++ [(id, true)],
                        mapped := st.mapped.erase id } id true rfl rfl
            rw [hrc]
            have hlenm := List.length_erase_of_mem hmemid
            have hpos : 0 < st.mapped.length := List.length_pos_of_mem hmemid
            simp only [if_true]
            omega
        · rename_i hmo
          exact absurd (hok st.munmapCalls) (by simp [hmo])
    · rename_i hi
      have hdrop : st.regions.drop i = [] := List.drop_eq_nil_of_le (by omega)
      rw [hdrop] at hmap
      have hmapped : st.mapped = [] := by
        have h0 : (st.mapped : Multiset Nat) = 0 := by rw [hmap]; rfl
        rwa [Multiset.coe_eq_zero] at h0
      refine ⟨hmapped, ?_⟩
      show releasedCount st = st.mapSucc
      rw [hmapped] at hcnt
      simpa using hcnt

/-- C3 at the worker level: if the kernel honours every munmap, then when the
worker returns, no region is still mapped and the successful mmaps balance the
successful munmaps.  This holds on every exit path, including the
table-allocation-failure early return. -/
lemma worker_inv3 (env : WEnv) (cfg : thread_data) (fuel : Nat) (out : WOut)
    (hok : ∀ k, env.munmapOk k = true)
    (hw : tlb_flush_worker env cfg fuel = some out) :
    out.final.mapped = [] ∧ out.final.mapSucc = releasedCount out.final := by
  unfold tlb_flush_worker at hw
  split at hw
  · rcases hrc : runCycles env cfg fuel (initState env cfg) with _ | st
    · rw [hrc] at hw; exact absurd hw (by simp)
    · rw [hrc] at hw
      have hout := Option.some.inj hw
      have hinv : INV3 cfg st := by
        refine runCycles_inv3 env cfg hok fuel _ st (inv3_init env cfg) ?_ hrc
        left
        intro k _
        exact slotIds_getD_replicate cfg.iterations_per_cycle k
      obtain ⟨h1, h2, h3⟩ := hinv
      have hc := cleanupAux_inv3 env cfg hok cfg.iterations_per_cycle 0 st
        h1 (by omega) (by simpa using h2) h3
      rw [← hout]
      exact ⟨hc.1, hc.2.symm⟩
  · have hout := Option.some.inj hw
    rw [← hout]
    exact ⟨rfl, rfl⟩

/-! Release-phase slot discipline (claim C10). -/

lemma relBody_slot_of_ne_uninit (env : WEnv) (i : Nat) (st0 : WState)
    (hne : st0.regions.getD i Slot.uninit ≠ Slot.uninit) :
    (relBody env i st0).regions.getD i Slot.uninit = Slot.mapFailed := by
  rcases hslot : st0.regions.getD i Slot.uninit with _ | _ | ⟨id, mem⟩
  · exact absurd hslot hne
  · simp only [relBody, hslot]
  · have hlen := getD_lt_length_of_region st0.regions i id mem hslot
    simp only [relBody, hslot]
    split <;> exact getD_set_self st0.regions i Slot.mapFailed Slot.uninit hlen

lemma releaseAux_frame_below (env : WEnv) (cfg : thread_data) :
    ∀ (fuel i : Nat) (st : WState) (idx : Nat), idx < i →
      (releaseAux env cfg fuel i st).1.regions.getD idx Slot.uninit =
        st.regions.getD idx Slot.uninit := by
  intro fuel
  induction fuel with
  | zero => intro i st idx _; rfl
  | succ fuel ih =>
    intro i st idx hidx
    unfold releaseAux
    split
    · split
      · rw [ih (i + 1) _ idx (by omega),
          relBody_other_slots env i (tick env st) idx (by omega)]
        rw [(tick_pres env st).2.2.1]
      · show (readFlag env st).2.regions.getD idx Slot.uninit = _
        rw [(readFlag_pres env st).2.2.1]
    · rfl

/-- Every slot the release phase actually processed ends up holding MAP_FAILED
(whether its munmap succeeded or not), provided the slot was initialized. -/
lemma releaseAux_sets (env : WEnv) (cfg : thread_data) :
    ∀ (fuel i : Nat) (st : WState) (idx : Nat), i ≤ idx →
      st.regions.getD idx Slot.uninit ≠ Slot.uninit →
      (idx < (releaseAux env cfg fuel i st).2 →
        (releaseAux env cfg fuel i st).1.regions.getD idx Slot.uninit =
          Slot.mapFailed) := by
  intro fuel
  induction fuel with
  | zero =>
    intro i st idx hle hne hm
    exact absurd hm (by show ¬ idx < i; omega)
  | succ fuel ih =>
    intro i st idx hle hne
    unfold releaseAux
    split
    · split
      · intro hm
        by_cases hidx : idx = i
        · rw [releaseAux_frame_below env cfg fuel (i + 1) _ idx (by omega)]
          subst hidx
          apply relBody_slot_of_ne_uninit
          rw [(tick_pres env st).2.2.1]
          exact hne
        · refine ih (i + 1) _ idx (by omega) ?_ hm
          rw [relBody_other_slots env i (tick env st) idx (by omega),
            (tick_pres env st).2.2.1]
          exact hne
      · intro hm
        exact absurd hm (by show ¬ idx < i; omega)
    · intro hm
      exact absurd hm (by show ¬ idx < i; omega)

/-! Termination of the cycle loop (claim C8). -/

/-- The worker's loop exits for some fuel (i.e. the C loop terminates). -/
def workerTerminates (env : WEnv) (cfg : thread_data) : Prop :=
  ∃ fuel, (tlb_flush_worker env cfg fuel).isSome = true

/-- The values successive time(NULL) calls return never decrease. -/
def monotoneClock (env : WEnv) : Prop :=
  ∀ a b : Nat, a ≤ b → env.clock a ≤ env.clock b

lemma cycleTop_fields (env : WEnv) (st : WState) :
    (cycleTop env st).startTime = st.startTime ∧
    (cycleTop env st).timeCalls = st.timeCalls + 1 ∧
    (cycleTop env st).pollCount = st.pollCount + 1 := by
  refine ⟨?_, ?_, ?_⟩ <;> simp [cycleTop, readFlag]

lemma framePres_cyclePhases (env : WEnv) (cfg : thread_data) (st : WState) :
    framePres st (cyclePhases env cfg st) := by
  unfold cyclePhases
  exact framePres_trans (framePres_mapAux env cfg _ _ _)
    (framePres_trans (framePres_accessAux env cfg _ _ _)
      (framePres_releaseAux env cfg _ _ _))

lemma runCycles_stops_flag (env : WEnv) (cfg : thread_data) (s : Nat)
    (hs : env.shutdownAfter = some s) :
    ∀ (fuel : Nat) (st : WState), s + 1 - st.pollCount < fuel →
      (runCycles env cfg fuel st).isSome = true := by
  intro fuel
  induction fuel with
  | zero => intro st h; omega
  | succ fuel ih =>
    intro st h
    unfold runCycles
    split
    · rename_i hv
      split
      · rfl
      · have hlt := readFlag_true_lt env st s hs hv
        refine ih _ ?_
        have h1 := (cycleTop_fields env st).2.2
        have h2 := (framePres_cyclePhases env cfg (cycleTop env st)).2.2.2
        omega
    · rfl

lemma runCycles_stops_clock (env : WEnv) (cfg : thread_data) (k : Nat)
    (hsd : env.shutdownAfter = none) (hmono : monotoneClock env)
    (hk : env.clock (k + 1) - env.clock 0 ≥ (cfg.duration_seconds : Int)) :
    ∀ (fuel : Nat) (st : WState), st.startTime = env.clock 0 →
      (k + 2) - st.timeCalls < fuel →
      (runCycles env cfg fuel st).isSome = true := by
  intro fuel
  induction fuel with
  | zero => intro st _ h; omega
  | succ fuel ih =>
    intro st hstart h
    unfold runCycles
    split
    · split
      · rfl
      · rename_i htime
        have hm : st.timeCalls ≤ k := by
          by_contra hgt
          apply htime
          have hmo := hmono (k + 1) st.timeCalls (by omega)
          rw [hstart]
          omega
        refine ih _ ?_ ?_
        · have h1 := (cycleTop_fields env st).1
          have h2 := (framePres_cyclePhases env cfg (cycleTop env st)).1
          rw [h2, h1, hstart]
        · have h1 := (cycleTop_fields env st).2.1
          have h2 := (framePres_cyclePhases env cfg (cycleTop env st)).2.1
          omega
    · rename_i hv
      exact absurd (by simp [readFlag, hsd] : (readFlag env st).1 = true) hv

lemma worker_isSome_of_runCycles (env : WEnv) (cfg : thread_data) (fuel : Nat)
    (h : (runCycles env cfg fuel (initState env cfg)).isSome = true) :
    (tlb_flush_worker env cfg fuel).isSome = true := by
  unfold tlb_flush_worker
  split
  · rcases hrc : runCycles env cfg fuel (initState env cfg) with _ | st
    · rw [hrc] at h; simp at h
    · rfl
  · rfl

/-! Main-side lemmas: the mutex-protected merge, the thread-launch loop. -/

/-- How a worker interacts with the global counter: exactly one merge of its
final per-thread count on the normal path; no merge at all (and a zero count)
on the table-allocation-failure path. -/
lemma worker_merges (env : WEnv) (cfg : thread_data) (fuel : Nat) (out : WOut)
    (hw : tlb_flush_worker env cfg fuel = some out) :
    out.merges.sum = out.final.thread_tlb_flushes ∧
    (env.tableAllocOk = true → out.merges = [out.final.thread_tlb_flushes]) ∧
    (env.tableAllocOk = false →
      out.merges = [] ∧ out.final.thread_tlb_flushes = 0 ∧ out.allocFailed = true) := by
  unfold tlb_flush_worker at hw
  split at hw
  · rename_i halloc
    rcases hrc : runCycles env cfg fuel (initState env cfg) with _ | st
    · rw [hrc] at hw; exact absurd hw (by simp)
    · rw [hrc] at hw
      have hout := Option.some.inj hw
      rw [← hout]
      refine ⟨by simp, fun _ => rfl, fun hfa => ?_⟩
      rw [halloc] at hfa
      exact absurd hfa (by simp)
  · rename_i halloc
    have hout := Option.some.inj hw
    rw [← hout]
    refine ⟨by simp [allocFailState], fun hta => ?_, fun _ => ⟨rfl, rfl, rfl⟩⟩
    exact absurd hta halloc

lemma runWorkers_sum (wenvs : Nat → WEnv) (cfg : Config) (fuel : Nat) :
    ∀ (ks : List Nat) (outs : List WOut), runWorkers wenvs cfg fuel ks = some outs →
      (outs.map (fun o => o.merges.sum)).sum =
        (outs.map (fun o => o.final.thread_tlb_flushes)).sum := by
  intro ks
  induction ks with
  | nil =>
    intro outs h
    have houts : outs = [] := (Option.some.inj h).symm
    rw [houts]
    rfl
  | cons k ks ih =>
    intro outs h
    unfold runWorkers at h
    rcases hw : tlb_flush_worker (wenvs k) (mkThreadData k cfg) fuel with _ | o <;>
      rw [hw] at h
    · exact absurd h (by simp)
    · rcases hr : runWorkers wenvs cfg fuel ks with _ | os <;> rw [hr] at h
      · exact absurd h (by simp)
      · have := Option.some.inj h
        rw [← this]
        simp only [List.map_cons, List.sum_cons]
        rw [(worker_merges (wenvs k) (mkThreadData k cfg) fuel o hw).1, ih os hr]

/-- The launch loop stops exactly at the first pthread_create failure and
clears the flag. -/
lemma launchLoop_firstFail (menv : MainEnv) (n : Nat) :
    ∀ (fuel i f : Nat), i ≤ f → f < n → n ≤ i + fuel →
      menv.createOk f = false → (∀ j, j < f → menv.createOk j = true) →
      launchLoop menv n fuel i = (f, true) := by
  intro fuel
  induction fuel with
  | zero => intro i f h1 h2 h3 _ _; omega
  | succ fuel ih =>
    intro i f h1 h2 h3 hcf hall
    unfold launchLoop
    rw [if_pos (by omega)]
    rcases hco : menv.createOk i with _ | _
    · simp only [Bool.false_eq_true, if_false]
      have hif : i = f := by
        by_contra hne
        have hlt : i < f := by omega
        rw [hall i hlt] at hco
        exact Bool.noConfusion hco
      rw [hif]
    · simp only [if_true]
      have hne : i ≠ f := by
        intro he
        rw [he, hcf] at hco
        exact Bool.noConfusion hco
      exact ih (i + 1) f (by omega) h2 (by omega) hcf hall

/-! Concrete environments used by witnesses and counterexamples. -/

/-- One worker, one page, one iteration per cycle, one second duration. -/
def cfgOne : thread_data := ⟨0, 1, 1, 1⟩
/-- All system calls succeed; the clock advances past the deadline after one
cycle; the flag is never cleared. -/
def envActive : WEnv := ⟨true, fun _ => true, fun _ => true,
  fun k => if k ≤ 1 then 0 else 1, none⟩
/-- The flag is already cleared before the worker's first read. -/
def envStopped : WEnv := ⟨true, fun _ => true, fun _ => true, fun _ => 0, some 0⟩
/-- The malloc of the region-pointer table fails. -/
def envNoTable : WEnv := ⟨false, fun _ => true, fun _ => true, fun _ => 0, some 0⟩
/-- The clock never advances and the flag is never cleared. -/
def envFrozen : WEnv := ⟨true, fun _ => true, fun _ => true, fun _ => 0, none⟩
/-- Main's mallocs and every pthread_create succeed. -/
def menvAllOk : MainEnv := ⟨true, true, fun _ => true⟩
/-- Every pthread_create fails. -/
def menvNoCreate : MainEnv := ⟨true, true, fun _ => false⟩
/-- The output of a worker run that performs one full cycle. -/
def outActive : WOut :=
  (tlb_flush_worker envActive cfgOne 3).getD ⟨allocFailState, [], true⟩
/-- A worker state holding one freshly mapped region in slot 0. -/
def stMapped : WState := mapAux envActive cfgOne 1 0 (initState envActive cfgOne)

/-- C1 counterexample: with every pthread_create failing, the process stops
launching (0 workers started) and clears the shutdown flag, but then returns 0
from main — not the exit status 1 the claim asserts. -/
theorem C1_counterexample :
    (main [CliOpt.optT "1", CliOpt.optD "1"] menvNoCreate (fun _ => envStopped)
      1).map ProcResult.exitCode = some 0 ∧
    (main [CliOpt.optT "1", CliOpt.optD "1"] menvNoCreate (fun _ => envStopped)
      1).map ProcResult.keepRunningCleared = some true ∧
    (main [CliOpt.optT "1", CliOpt.optD "1"] menvNoCreate (fun _ => envStopped)
      1).map ProcResult.started = some 0 :=
  ⟨rfl, rfl, rfl⟩

/-- C1 (amended): if pthread_create first fails at index f, main stops creating
further workers (exactly f started), raises the shutdown flag, still attempts
num_threads joins, and the process exits with status 0 (after reporting partial
results) — not 1; status 1 is produced only by argument validation and by the
bookkeeping-allocation failure. -/
theorem C1_create_fail_exits_zero :
    ∀ (opts : List CliOpt) (cfg : Config) (menv : MainEnv) (wenvs : Nat → WEnv)
      (fuel : Nat) (r : ProcResult) (f : Nat),
      parseArgs opts = ParseResult.run cfg →
      menv.threadsAllocOk = true → menv.dataAllocOk = true →
      f < cfg.num_threads → menv.createOk f = false →
      (∀ j, j < f → menv.createOk j = true) →
      main opts menv wenvs fuel = some r →
      r.started = f ∧ r.keepRunningCleared = true ∧ r.exitCode = 0 ∧
        r.joinAttempts = cfg.num_threads := by
  intro opts cfg menv wenvs fuel r f hp ha hb hf hcf hall hm
  have hl := launchLoop_firstFail menv cfg.num_threads cfg.num_threads 0 f
    (Nat.zero_le f) hf (by omega) hcf hall
  unfold main at hm
  rw [hp] at hm
  dsimp only at hm
  rw [if_pos ⟨ha, hb⟩, hl] at hm
  rcases hrw : runWorkers wenvs cfg fuel (List.range (f, true).1) with _ | outs <;>
    rw [hrw] at hm
  · exact absurd hm (by simp)
  · have hr := Option.some.inj hm
    rw [← hr]
    exact ⟨rfl, rfl, rfl, rfl⟩

/-- C2 counterexample: a worker whose region-table malloc fails neither sets
the shutdown flag nor makes the process exit non-zero; the run completes with
exit status 0 and the flag untouched. -/
theorem C2_counterexample :
    (main [CliOpt.optT "1", CliOpt.optD "1"] menvAllOk (fun _ => envNoTable)
      1).map ProcResult.exitCode = some 0 ∧
    (main [CliOpt.optT "1", CliOpt.optD "1"] menvAllOk (fun _ => envNoTable)
      1).map ProcResult.keepRunningCleared = some false :=
  ⟨rfl, rfl⟩

/-- C2 (amended): failure of main's thread/thread-data mallocs makes the
process exit 1 immediately with no worker started (the shutdown flag is not
touched); failure of a worker's region-table malloc only makes that worker log
and return early, without setting the flag, merging, or exiting the process. -/
theorem C2_alloc_failure_behavior :
    (∀ (opts : List CliOpt) (cfg : Config) (menv : MainEnv)
       (wenvs : Nat → WEnv) (fuel : Nat),
       parseArgs opts = ParseResult.run cfg →
       (menv.threadsAllocOk = false ∨ menv.dataAllocOk = false) →
       main opts menv wenvs fuel = some (procOf 1 0 false 0 [])) ∧
    (∀ (env : WEnv) (cfg : thread_data) (fuel : Nat),
       env.tableAllocOk = false →
       tlb_flush_worker env cfg fuel = some ⟨allocFailState, [], true⟩) := by
  constructor
  · intro opts cfg menv wenvs fuel hp hdisj
    unfold main
    rw [hp]
    dsimp only
    rw [if_neg ?_]
    intro hab
    rcases hdisj with h | h
    · rw [h] at hab; exact Bool.noConfusion hab.1
    · rw [h] at hab; exact Bool.noConfusion hab.2
  · intro env cfg fuel hta
    unfold tlb_flush_worker
    rw [if_neg (by rw [hta]; simp)]

/-- C2 witness for the amended statement, at a concrete failing setup. -/
theorem C2_witness :
    (parseArgs [CliOpt.optT "1"] = ParseResult.run ⟨1, 1024, 60, 100⟩ ∧
      (MainEnv.mk false true (fun _ => true)).threadsAllocOk = false) ∧
    main [CliOpt.optT "1"] (MainEnv.mk false true (fun _ => true))
      (fun _ => envStopped) 1 = some (procOf 1 0 false 0 []) :=
  ⟨⟨rfl, rfl⟩, C2_alloc_failure_behavior.1 [CliOpt.optT "1"] ⟨1, 1024, 60, 100⟩
    (MainEnv.mk false true (fun _ => true)) (fun _ => envStopped) 1 rfl
    (Or.inl rfl)⟩

/-- C1 witness for the amended statement. -/
theorem C1_witness :
    (parseArgs [CliOpt.optT "1", CliOpt.optD "1"] =
        ParseResult.run ⟨1, 1024, 1, 100⟩ ∧
      menvNoCreate.createOk 0 = false ∧
      main [CliOpt.optT "1", CliOpt.optD "1"] menvNoCreate (fun _ => envStopped)
        1 = some (procOf 0 0 true 1 [])) ∧
    ((procOf 0 0 true 1 []).started = 0 ∧
      (procOf 0 0 true 1 []).keepRunningCleared = true ∧
      (procOf 0 0 true 1 []).exitCode = 0 ∧
      (procOf 0 0 true 1 []).joinAttempts = 1) :=
  ⟨⟨rfl, rfl, rfl⟩,
    C1_create_fail_exits_zero [CliOpt.optT "1", CliOpt.optD "1"]
      ⟨1, 1024, 1, 100⟩ menvNoCreate (fun _ => envStopped) 1
      (procOf 0 0 true 1 []) 0 rfl rfl rfl (by decide) rfl
      (fun j hj => absurd hj (Nat.not_lt_zero j)) rfl⟩

/-- C3: on every worker exit path, if the kernel honours every munmap call,
then when the worker returns no region it mapped is still mapped, and the total
count of successfully mapped regions equals the total count of successfully
released regions. -/
theorem C3_no_regions_leaked :
    ∀ (env : WEnv) (cfg : thread_data) (fuel : Nat) (out : WOut),
      (∀ k, env.munmapOk k = true) →
      tlb_flush_worker env cfg fuel = some out →
      out.final.mapped = [] ∧ out.final.mapSucc = releasedCount out.final := by
  intro env cfg fuel out hok hw
  exact worker_inv3 env cfg fuel out hok hw

/-- C3 witness: a run that really maps, touches, accesses and releases a
region. -/
theorem C3_witness :
    ((∀ k, envActive.munmapOk k = true) ∧
      tlb_flush_worker envActive cfgOne 3 = some outActive) ∧
    (outActive.final.mapped = [] ∧
      outActive.final.mapSucc = releasedCount outActive.final) :=
  ⟨⟨fun _ => rfl, rfl⟩,
    C3_no_regions_leaked envActive cfgOne 3 outActive (fun _ => rfl) rfl⟩

/-- C4: the per-thread flush counter equals the number of successful
release-phase munmaps (failed unmaps are not counted, cleanup unmaps are not
counted), and never exceeds the number of successful mmaps of the same run. -/
theorem C4_flush_counter_bounds :
    ∀ (env : WEnv) (cfg : thread_data) (fuel : Nat) (out : WOut),
      tlb_flush_worker env cfg fuel = some out →
      out.final.thread_tlb_flushes =
        (out.final.relCalls.filter (fun c => c.2)).length ∧
      out.final.thread_tlb_flushes ≤ out.final.mapSucc := by
  intro env cfg fuel out hw
  exact ⟨(worker_facts env cfg fuel out hw).1, (worker_facts env cfg fuel out hw).2.1⟩

/-- C4 witness. -/
theorem C4_witness :
    tlb_flush_worker envActive cfgOne 3 = some outActive ∧
    (outActive.final.thread_tlb_flushes =
        (outActive.final.relCalls.filter (fun c => c.2)).length ∧
      outActive.final.thread_tlb_flushes ≤ outActive.final.mapSucc) :=
  ⟨rfl, C4_flush_counter_bounds envActive cfgOne 3 outActive rfl⟩

/-- C5 counterexample: on the table-allocation-failure path the worker performs
no merge at all (zero lock/add/unlock blocks, not exactly one). -/
theorem C5_counterexample :
    (tlb_flush_worker envNoTable cfgOne 0).map (fun o => o.merges) = some [] ∧
    (tlb_flush_worker envNoTable cfgOne 0).map (fun o => o.allocFailed) =
      some true :=
  ⟨rfl, rfl⟩

/-- C5 (amended): a worker that gets past table allocation merges its final
per-thread count into the global counter exactly once, under the mutex, after
its loop has exited; a worker whose table malloc fails merges zero times and
its count stays 0, so the global total still equals the sum of the per-thread
counts after all joins. -/
theorem C5_counter_merge :
    (∀ (env : WEnv) (cfg : thread_data) (fuel : Nat) (out : WOut),
       tlb_flush_worker env cfg fuel = some out →
       (env.tableAllocOk = true → out.merges = [out.final.thread_tlb_flushes]) ∧
       (env.tableAllocOk = false →
         out.merges = [] ∧ out.final.thread_tlb_flushes = 0) ∧
       out.merges.sum = out.final.thread_tlb_flushes) ∧
    (∀ (opts : List CliOpt) (menv : MainEnv) (wenvs : Nat → WEnv) (fuel : Nat)
       (r : ProcResult),
       main opts menv wenvs fuel = some r →
       r.totalFlushes = r.perThread.sum) := by
  constructor
  · intro env cfg fuel out hw
    obtain ⟨m1, m2, m3⟩ := worker_merges env cfg fuel out hw
    exact ⟨m2, fun hf => ⟨(m3 hf).1, (m3 hf).2.1⟩, m1⟩
  · intro opts menv wenvs fuel r hm
    unfold main at hm
    rcases hp : parseArgs opts with cfg | ⟨c, b⟩ <;> rw [hp] at hm <;> dsimp only at hm
    · by_cases hab : menv.threadsAllocOk = true ∧ menv.dataAllocOk = true
      · rw [if_pos hab] at hm
        rcases hrw : runWorkers wenvs cfg fuel
            (List.range (launchLoop menv cfg.num_threads cfg.num_threads 0).1)
          with _ | outs <;> rw [hrw] at hm
        · exact absurd hm (by simp)
        · have hr := Option.some.inj hm
          rw [← hr]
          show (outs.map (fun o => o.merges.sum)).sum =
            (outs.map (fun o => o.final.thread_tlb_flushes)).sum
          exact runWorkers_sum wenvs cfg fuel _ outs hrw
      · rw [if_neg hab] at hm
        have hr := Option.some.inj hm
        rw [← hr]
        rfl
    · have hr := Option.some.inj hm
      rw [← hr]
      rfl

/-- The outcome of a small complete run used by the C5 witness. -/
def rMerge : ProcResult :=
  (main [CliOpt.optT "1", CliOpt.optD "1", CliOpt.optP "1", CliOpt.optI "1"]
    menvAllOk (fun _ => envActive) 2).getD (procOf 0 0 false 0 [])

/-- C5 witness: a real run whose global total equals the per-thread sum. -/
theorem C5_witness :
    main [CliOpt.optT "1", CliOpt.optD "1", CliOpt.optP "1", CliOpt.optI "1"]
      menvAllOk (fun _ => envActive) 2 = some rMerge ∧
    rMerge.totalFlushes = rMerge.perThread.sum :=
  ⟨rfl, C5_counter_merge.2 [CliOpt.optT "1", CliOpt.optD "1", CliOpt.optP "1",
    CliOpt.optI "1"] menvAllOk (fun _ => envActive) 2 rMerge rfl⟩

/-- C6 counterexample: the malformed option value "5x" is not rejected — atoi
silently parses its leading digits, 5 threads are configured and started, and
the process exits 0 instead of the claimed error-and-exit-1. -/
theorem C6_counterexample :
    parseArgs [CliOpt.optT "5x", CliOpt.optI "1"] =
      ParseResult.run ⟨5, 1024, 60, 1⟩ ∧
    (main [CliOpt.optT "5x", CliOpt.optI "1"] menvAllOk (fun _ => envStopped)
      1).map ProcResult.started = some 5 ∧
    (main [CliOpt.optT "5x", CliOpt.optI "1"] menvAllOk (fun _ => envStopped)
      1).map ProcResult.exitCode = some 0 :=
  ⟨rfl, rfl, rfl⟩

/-- C6 (amended): option values are parsed with C atoi semantics (longest digit
prefix after optional whitespace and sign; 0 when there are no digits, trailing
garbage silently ignored).  An option whose parsed value is out of its
documented bounds (threads 1-64, pages 1-100000, duration ≥ 1, iterations
1-10000) causes an error on stderr and exit status 1 before any worker starts;
an in-bounds parsed value is taken exactly as parsed, never clamped; -h prints
usage and exits 0; an option getopt rejects exits 1. -/
theorem C6_argument_validation :
    ∀ (cfg : Config) (a : String) (rest : List CliOpt),
      ((atoi a ≤ 0 ∨ 64 < atoi a) →
        parseArgsAux cfg (CliOpt.optT a :: rest) = ParseResult.exitWith 1 true) ∧
      (¬(atoi a ≤ 0 ∨ 64 < atoi a) →
        parseArgsAux cfg (CliOpt.optT a :: rest) =
          parseArgsAux { cfg with num_threads := (atoi a).toNat } rest) ∧
      ((atoi a ≤ 0 ∨ 100000 < atoi a) →
        parseArgsAux cfg (CliOpt.optP a :: rest) = ParseResult.exitWith 1 true) ∧
      (¬(atoi a ≤ 0 ∨ 100000 < atoi a) →
        parseArgsAux cfg (CliOpt.optP a :: rest) =
          parseArgsAux { cfg with pages_per_thread := (atoi a).toNat } rest) ∧
      (atoi a ≤ 0 →
        parseArgsAux cfg (CliOpt.optD a :: rest) = ParseResult.exitWith 1 true) ∧
      (¬(atoi a ≤ 0) →
        parseArgsAux cfg (CliOpt.optD a :: rest) =
          parseArgsAux { cfg with duration_seconds := (atoi a).toNat } rest) ∧
      ((atoi a ≤ 0 ∨ 10000 < atoi a) →
        parseArgsAux cfg (CliOpt.optI a :: rest) = ParseResult.exitWith 1 true) ∧
      (¬(atoi a ≤ 0 ∨ 10000 < atoi a) →
        parseArgsAux cfg (CliOpt.optI a :: rest) =
          parseArgsAux { cfg with iterations_per_cycle := (atoi a).toNat } rest) ∧
      parseArgsAux cfg (CliOpt.optH :: rest) = ParseResult.exitWith 0 false ∧
      parseArgsAux cfg (CliOpt.optUnknown :: rest) = ParseResult.exitWith 1 false ∧
      (∀ (opts : List CliOpt) (menv : MainEnv) (wenvs : Nat → WEnv) (fuel : Nat)
         (c : Nat) (b : Bool), parseArgs opts = ParseResult.exitWith c b →
         main opts menv wenvs fuel = some (procOf c 0 false 0 [])) := by
  intro cfg a rest
  refine ⟨?_, ?_, ?_, ?_, ?_, ?_, ?_, ?_, ?_, ?_, ?_⟩
  · intro h; simp only [parseArgsAux]; rw [if_pos h]
  · intro h; simp only [parseArgsAux]; rw [if_neg h]
  · intro h; simp only [parseArgsAux]; rw [if_pos h]
  · intro h; simp only [parseArgsAux]; rw [if_neg h]
  · intro h; simp only [parseArgsAux]; rw [if_pos h]
  · intro h; simp only [parseArgsAux]; rw [if_neg h]
  · intro h; simp only [parseArgsAux]; rw [if_pos h]
  · intro h; simp only [parseArgsAux]; rw [if_neg h]
  · simp only [parseArgsAux]
  · simp only [parseArgsAux]
  · intro opts menv wenvs fuel c b hp
    unfold main
    rw [hp]

/-- C6 witness: the boundary value -t 0 is rejected with exit 1. -/
theorem C6_witness :
    (atoi "0" ≤ 0 ∨ 64 < atoi "0") ∧
    parseArgsAux defaultConfig [CliOpt.optT "0"] = ParseResult.exitWith 1 true :=
  ⟨Or.inl (by decide),
    (C6_argument_validation defaultConfig "0" []).1 (Or.inl (by decide))⟩

/-- C7: the access phase visits exactly the page indices 0, 4, 8, ... below
pagesPerThread; for each it touches the offset (j*17 + i*13) mod pagesPerThread
with a read followed by a write of the read value plus one (mod 256, as the C
char store does). -/
theorem C7_access_pattern_spec :
    ∀ (pages i : Nat) (mem : List Nat),
      accessRegion pages i mem = rwTrace (strideOffsets pages i) mem ∧
      ∀ j, j ∈ strideJs pages ↔ (j % 4 = 0 ∧ j < pages) := by
  intro pages i mem
  exact ⟨accessRegion_spec pages i mem, strideJs_mem pages⟩

/-- C8 counterexample: with a non-decreasing (constant) clock, a positive
duration and the flag never cleared, the cycle loop never terminates — the
claim's hypotheses are satisfiable without termination. -/
theorem C8_counterexample :
    monotoneClock envFrozen ∧ 0 < cfgOne.duration_seconds ∧
      ¬ workerTerminates envFrozen cfgOne := by
  refine ⟨fun a b _ => le_refl 0, by decide, ?_⟩
  intro ⟨fuel, hf⟩
  have hnone : ∀ (fl : Nat) (st : WState), st.startTime = 0 →
      runCycles envFrozen cfgOne fl st = none := by
    intro fl
    induction fl with
    | zero => intro st _; rfl
    | succ fl ih =>
      intro st hstart
      have hv : (readFlag envFrozen st).1 = true := rfl
      have hc : ¬ (envFrozen.clock st.timeCalls - st.startTime ≥
          ((cfgOne.duration_seconds : Nat) : Int)) := by
        rw [hstart]
        show ¬ ((0 : Int) - 0 ≥ ((1 : Nat) : Int))
        decide
      unfold runCycles
      rw [if_pos hv, if_neg hc]
      refine ih _ ?_
      rw [(framePres_cyclePhases envFrozen cfgOne (cycleTop envFrozen st)).1,
        (cycleTop_fields envFrozen st).1, hstart]
  have hw : tlb_flush_worker envFrozen cfgOne fuel = none := by
    unfold tlb_flush_worker
    rw [hnone fuel (initState envFrozen cfgOne) rfl]
    rfl
  rw [hw] at hf
  exact Bool.noConfusion hf

/-- C8 (amended): the cycle loop terminates whenever the shutdown flag is
eventually cleared, or the clock is non-decreasing and eventually advances past
start time + duration (a merely non-decreasing clock that never reaches the
deadline allows the loop to spin forever); and with the flag cleared after s
reads, at most s phase-loop iterations ever begin — no new map, access or
release iteration starts once the flag reads 0. -/
theorem C8_loop_termination :
    (∀ (env : WEnv) (cfg : thread_data) (s : Nat),
       env.shutdownAfter = some s → workerTerminates env cfg) ∧
    (∀ (env : WEnv) (cfg : thread_data) (k : Nat),
       env.shutdownAfter = none → monotoneClock env →
       env.clock (k + 1) - env.clock 0 ≥ (cfg.duration_seconds : Int) →
       workerTerminates env cfg) ∧
    (∀ (env : WEnv) (cfg : thread_data) (fuel : Nat) (out : WOut) (s : Nat),
       env.shutdownAfter = some s → tlb_flush_worker env cfg fuel = some out →
       out.final.phaseIters ≤ s) := by
  refine ⟨?_, ?_, ?_⟩
  · intro env cfg s hs
    refine ⟨s + 2, worker_isSome_of_runCycles env cfg (s + 2) ?_⟩
    refine runCycles_stops_flag env cfg s hs (s + 2) (initState env cfg) ?_
    show s + 1 - 0 < s + 2
    omega
  · intro env cfg k hsd hmono hk
    refine ⟨k + 2, worker_isSome_of_runCycles env cfg (k + 2) ?_⟩
    refine runCycles_stops_clock env cfg k hsd hmono hk (k + 2)
      (initState env cfg) rfl ?_
    show (k + 2) - 1 < k + 2
    omega
  · intro env cfg fuel out s hs hw
    exact (worker_facts env cfg fuel out hw).2.2.2 s hs

/-- C8 witness: a flag cleared at startup terminates the loop. -/
theorem C8_witness :
    envStopped.shutdownAfter = some 0 ∧ workerTerminates envStopped cfgOne :=
  ⟨rfl, C8_loop_termination.1 envStopped cfgOne 0 rfl⟩

/-- C9: the final cleanup loop reads a slot of the malloc'd region table that
no phase ever wrote.  With -i 1 and the shutdown flag cleared before the
worker's first keep_running read (e.g. a SIGINT delivered at startup), the map
phase never runs, yet the cleanup loop (which has no keep_running guard) reads
memory_regions[0] — uninitialized malloc memory — and compares it with
MAP_FAILED.  The claim that no slot is read before being written is violated by
the code. -/
theorem C9_cleanup_reads_uninitialized :
    (tlb_flush_worker envStopped cfgOne 1).map (fun o => o.final.uninitReads) =
      some 1 ∧
    (tlb_flush_worker envStopped cfgOne 1).map (fun o => o.final.mmapCalls) =
      some 0 :=
  ⟨rfl, rfl⟩

/-- C10: no region id is ever passed to munmap twice (so the cleanup loop never
unmaps a region the release phase already unmapped, and a region whose
release-phase munmap failed is never retried); and every slot the release phase
processes that holds a genuine value is set to MAP_FAILED unconditionally,
whether its munmap succeeded or not. -/
theorem C10_munmap_once :
    ∀ (env : WEnv) (cfg : thread_data) (fuel : Nat) (out : WOut),
      tlb_flush_worker env cfg fuel = some out →
      (out.final.relCalls.map Prod.fst ++
        out.final.cleanCalls.map Prod.fst).Nodup ∧
      (∀ (st : WState) (idx : Nat),
        idx < (releaseAux env cfg cfg.iterations_per_cycle 0 st).2 →
        st.regions.getD idx Slot.uninit ≠ Slot.uninit →
        (releaseAux env cfg cfg.iterations_per_cycle 0 st).1.regions.getD idx
          Slot.uninit = Slot.mapFailed) := by
  intro env cfg fuel out hw
  refine ⟨(worker_facts env cfg fuel out hw).2.2.1, ?_⟩
  intro st idx hm hne
  exact releaseAux_sets env cfg cfg.iterations_per_cycle 0 st idx
    (Nat.zero_le idx) hne hm

/-- C10 witness: a real run, plus a state with one mapped region whose release
iteration leaves MAP_FAILED in the slot. -/
theorem C10_witness :
    tlb_flush_worker envActive cfgOne 3 = some outActive ∧
    (outActive.final.relCalls.map Prod.fst ++
      outActive.final.cleanCalls.map Prod.fst).Nodup ∧
    (releaseAux envActive cfgOne cfgOne.iterations_per_cycle 0
      stMapped).1.regions.getD 0 Slot.uninit = Slot.mapFailed :=
  ⟨rfl, (C10_munmap_once envActive cfgOne 3 outActive rfl).1,
    (C10_munmap_once envActive cfgOne 3 outActive rfl).2 stMapped 0 (by decide)
      (by decide)⟩

end Tlb
